import Mathlib

/-!
Verification of the OETS web backend's course workflow (core/models.py,
core/views.py, core/serializers.py) against its natural-language
specification.

The Django code is shallowly embedded: the database is a `Store` of lists
of records, each HTTP action is a function from a store (plus the
authenticated actor and request data) to a response code and an updated
store, and the ORM calls are translated line by line.  Machine-level
details that the claims do not touch (file uploads, websocket delivery,
JWT issuance) are left out.  Outbound email is modelled by a single
boolean `emailOk` per request: when it is `false` the first `send_mail`
call with `fail_silently=False` raises, exactly as a failing SMTP
dependency would; when it is `true` every send succeeds.  Timestamps are
integers; a Python `timedelta` is its total number of seconds, so that a
`timedelta` is falsy exactly when the integer is zero.
-/

namespace OETS

/-- `User.Role` in core/models.py. -/
inductive Role where
  | LEARNER
  | FORMATEUR
  | RESPONSABLE
  | SECRETAIRE
  | ADMIN
  | MARKETING
  | PARENT
deriving DecidableEq, Repr

/-- `Course.Status` in core/models.py. -/
inductive Status where
  | DRAFT
  | SUBMITTED
  | UNDER_REVIEW
  | APPROVED
  | REJECTED
  | PUBLISHED
deriving DecidableEq, Repr

/-- `Course.SupplierType` in core/models.py. -/
inductive SupplierType where
  | INTERNAL
  | EXTERNAL
  | HOD
deriving DecidableEq, Repr

/-- The fields of `core.models.User` that the workflow reads. -/
structure User where
  id : Nat
  email : String
  first_name : String
  role : Role
  is_active : Bool
deriving DecidableEq, Repr

def User.is_admin (u : User) : Bool := u.role == Role.ADMIN

def User.is_responsable (u : User) : Bool := u.role == Role.RESPONSABLE

def User.is_formateur (u : User) : Bool := u.role == Role.FORMATEUR

def User.is_learner (u : User) : Bool := u.role == Role.LEARNER

def User.is_parent (u : User) : Bool := u.role == Role.PARENT

/-- `core.models.ParentChildRelationship`: links a PARENT user to a
LEARNER user (`limit_choices_to` on both foreign keys). -/
structure ParentChildRelationship where
  parent : User
  child : User
  relationship : String
deriving DecidableEq, Repr

/-- `core.models.TeamMember`: external instructor, unique by email. -/
structure TeamMember where
  id : Nat
  full_name : String
  qualification : String
  email : String
deriving DecidableEq, Repr

/-- `core.models.CourseTeam`: join row, unique per (course, team_member). -/
structure CourseTeam where
  course : Nat
  team_member : Nat
deriving DecidableEq, Repr

/-- `core.models.Course`.  `created_by` is the owning user (a FK in
Django; here the referenced record is carried inline).  `duration` is the
`timedelta` in seconds; `submission_deadline` a nullable timestamp. -/
structure Course where
  id : Nat
  title : String
  description : String
  supplier_type : SupplierType
  status : Status
  objectives : String
  contents : String
  duration : Int
  expected_income : Option Int
  links : Option String
  submission_deadline : Option Int
  created_by : User
deriving DecidableEq, Repr

/-- `core.models.Notification` (the fields the dispatcher writes). -/
structure Notification where
  recipient : Nat
  subject : String
  message : String
  course : Option Nat
deriving DecidableEq, Repr

/-- One `send_mail` call: subject and recipient list. -/
structure Email where
  subject : String
  recipient_list : List String
deriving DecidableEq, Repr

/-- The database plus the outbound-mail log.  `nextTeamMemberId` is the
auto-increment counter behind `TeamMember.objects.create`. -/
structure Store where
  users : List User
  courses : List Course
  relationships : List ParentChildRelationship
  teamMembers : List TeamMember
  courseTeams : List CourseTeam
  notifications : List Notification
  emails : List Email
  nextTeamMemberId : Nat
deriving DecidableEq, Repr

/-- DRF errors the serializer can raise.  `rest_framework`'s
`ValidationError` renders as HTTP 400 and `PermissionDenied` as 403; the
course serializer only ever raises the former. -/
inductive ApiError where
  | validation (msg : String)
  | authorization (msg : String)
deriving DecidableEq, Repr

/-- The HTTP status DRF gives each error class. -/
def ApiError.http_status : ApiError → Nat
  | .validation _ => 400
  | .authorization _ => 403

/-! ## Course model methods (core/models.py) -/

/-- `value.strip() == ''`: stripping leading and trailing whitespace
leaves nothing exactly when every character is whitespace. -/
def isBlank (s : String) : Bool := s.data.all Char.isWhitespace

/-- One required field is complete unless it is falsy or a blank string
(`if not value or (isinstance(value, str) and value.strip() == '')`). -/
def strComplete (s : String) : Bool := !(s == "") && !(isBlank s)

/-- `Course.check_completeness`: all of title, description, objectives,
contents, duration must be non-falsy and non-blank.  (Defined on the
model but — as the serializer's comment notes — never called by any
view.) -/
def Course.check_completeness (c : Course) : Bool :=
  strComplete c.title && strComplete c.description &&
  strComplete c.objectives && strComplete c.contents &&
  !(c.duration == 0)

/-- `Course.clean`: business-logic validation.  Raises
"Cannot submit after deadline" when the course is SUBMITTED past a
non-null deadline.  (Django's `Model.save` does not call `clean`; no view
calls `full_clean` either, so this check is never reached at runtime.) -/
def Course.clean (c : Course) (now : Int) : Except String Unit :=
  match c.submission_deadline with
  | some d =>
    if c.status == Status.SUBMITTED && decide (now > d) then
      .error "Cannot submit after deadline"
    else .ok ()
  | none => .ok ()

/-- The confirmation mail `Course._notify_submitter` sends. -/
def submissionConfirmEmail (c : Course) : Email :=
  { subject := "Course Submitted: " ++ c.title, recipient_list := [c.created_by.email] }

/-- One mail of `Course._notify_evaluators`. -/
def evaluatorAlertEmail (c : Course) (u : User) : Email :=
  { subject := "New Course Submission: " ++ c.title, recipient_list := [u.email] }

/-- `role__in=[RESPONSABLE, ADMIN]`, the evaluator query. -/
def isEvaluator (u : User) : Bool :=
  u.role == Role.RESPONSABLE || u.role == Role.ADMIN

/-- `Course._send_notifications` = `_notify_submitter` then
`_notify_evaluators`: plain `send_mail` calls with
`fail_silently=False` and no try/except, so the first failing send
propagates an exception and no Notification row is ever written. -/
def Course.send_notifications (c : Course) (users : List User) (emailOk : Bool) :
    Except Unit (List Email) :=
  if emailOk then
    .ok (submissionConfirmEmail c :: (users.filter isEvaluator).map (evaluatorAlertEmail c))
  else
    .error ()

/-- `cs` with the row of `c.id` replaced by `c` (the UPDATE the ORM's
`super().save()` issues for an existing primary key). -/
def updateCourseList (cs : List Course) (c : Course) : List Course :=
  cs.map (fun x => if x.id == c.id then c else x)

/-- `Course.save` for an already-persisted course: read the old status,
commit the row, then — when the status has just become SUBMITTED — run
`_send_notifications`.  Returns `false` when a send raised (the row is
committed either way, since there is no surrounding transaction). -/
def Course.save (st : Store) (c : Course) (emailOk : Bool) : Bool × Store :=
  if c.status == Status.SUBMITTED &&
      !((st.courses.find? (fun x => x.id == c.id)).map Course.status ==
        some Status.SUBMITTED) then
    match Course.send_notifications c st.users emailOk with
    | .ok es =>
      (true,
        { st with
          courses := updateCourseList st.courses c,
          emails := st.emails ++ es })
    | .error _ => (false, { st with courses := updateCourseList st.courses c })
  else
    (true, { st with courses := updateCourseList st.courses c })

/-! ## Publish notification fan-out (core/views.py) -/

/-- Notification row of `CourseViewSet._notify_learner`. -/
def learnerNotification (c : Course) (l : User) : Notification :=
  { recipient := l.id,
    subject := "New Course Available: " ++ c.title,
    message := "We\x27re excited to announce that \x27" ++ c.title ++
      "\x27 is now available for enrollment!",
    course := some c.id }

/-- Email of `CourseViewSet._notify_learner`. -/
def learnerEmail (c : Course) (l : User) : Email :=
  { subject := "New Course Available: " ++ c.title, recipient_list := [l.email] }

/-- Notification row of `CourseViewSet._notify_learner_parents`. -/
def parentNotification (c : Course) (l : User) (p : User) : Notification :=
  { recipient := p.id,
    subject := "New Course for " ++ l.first_name ++ ": " ++ c.title,
    message := "A new course \x27" ++ c.title ++
      "\x27 is now available that might interest " ++ l.first_name ++ "!",
    course := some c.id }

/-- Email of `CourseViewSet._notify_learner_parents`. -/
def parentEmail (c : Course) (l : User) (p : User) : Email :=
  { subject := "New Learning Opportunity for " ++ l.first_name ++ ": " ++ c.title,
    recipient_list := [p.email] }

/-- Notification row of `CourseViewSet._notify_general_parent`. -/
def generalParentNotification (c : Course) (p : User) : Notification :=
  { recipient := p.id,
    subject := "New Course Available: " ++ c.title,
    message := "A new course \x27" ++ c.title ++ "\x27 is now available for students!",
    course := some c.id }

/-- Email of `CourseViewSet._notify_general_parent`. -/
def generalParentEmail (c : Course) (p : User) : Email :=
  { subject := "New Learning Opportunity: " ++ c.title, recipient_list := [p.email] }

/-- Email of `CourseViewSet._notify_stakeholders` to one stakeholder. -/
def stakeholderEmail (c : Course) (u : User) : Email :=
  { subject := "Course Published: " ++ c.title, recipient_list := [u.email] }

/-- `_notify_learner`: Notification row first, then the email; its own
try/except, so a failing send loses only this learner's email. -/
def notify_learner (emailOk : Bool) (c : Course) (l : User) :
    List Notification × List Email :=
  ([learnerNotification c l], if emailOk then [learnerEmail c l] else [])

/-- The loop of `_notify_learner_parents` over one learner's
relationships.  A single try/except wraps the whole loop, so a failing
send aborts the remaining relationships of this learner — but the
Notification row created before the send stays. -/
def notifyLearnerParentsLoop (emailOk : Bool) (c : Course) (l : User) :
    List ParentChildRelationship → List Notification × List Email
  | [] => ([], [])
  | r :: rs =>
    if !r.parent.is_active then
      notifyLearnerParentsLoop emailOk c l rs
    else if emailOk then
      let rest := notifyLearnerParentsLoop emailOk c l rs
      (parentNotification c l r.parent :: rest.1, parentEmail c l r.parent :: rest.2)
    else
      ([parentNotification c l r.parent], [])

/-- `_notify_learner_parents`: `learner.parent_relationships` is the set
of relationship rows whose child is this learner. -/
def notify_learner_parents (emailOk : Bool) (c : Course) (l : User)
    (rels : List ParentChildRelationship) : List Notification × List Email :=
  notifyLearnerParentsLoop emailOk c l (rels.filter (fun r => r.child.id == l.id))

/-- `_notify_general_parent`: Notification row then email, own try/except. -/
def notify_general_parent (emailOk : Bool) (c : Course) (p : User) :
    List Notification × List Email :=
  ([generalParentNotification c p], if emailOk then [generalParentEmail c p] else [])

/-- `children_relationships__isnull=True`: the parent has no
relationship row at all. -/
def noChildRelationships (rels : List ParentChildRelationship) (u : User) : Bool :=
  !(rels.any (fun r => r.parent.id == u.id))

/-- `_notify_subscribers`: every active LEARNER gets a notification and
an email, then that learner's active parents, then every active PARENT
with no relationships gets a generic notification. -/
def notify_subscribers (emailOk : Bool) (users : List User)
    (rels : List ParentChildRelationship) (c : Course) :
    List Notification × List Email :=
  let learners := users.filter (fun u => u.role == Role.LEARNER && u.is_active)
  let blocks := learners.map (fun l =>
    let a := notify_learner emailOk c l
    let b := notify_learner_parents emailOk c l rels
    (a.1 ++ b.1, a.2 ++ b.2))
  let standalone := users.filter (fun u =>
    u.role == Role.PARENT && u.is_active && noChildRelationships rels u)
  let sp := standalone.map (notify_general_parent emailOk c)
  ((blocks.map Prod.fst).flatten ++ (sp.map Prod.fst).flatten,
   (blocks.map Prod.snd).flatten ++ (sp.map Prod.snd).flatten)

/-- Emails of the team members linked to a course through CourseTeam. -/
def teamMemberEmails (st : Store) (c : Course) : List String :=
  (st.courseTeams.filter (fun ct => ct.course == c.id)).filterMap
    (fun ct => (st.teamMembers.find? (fun m => m.id == ct.team_member)).map TeamMember.email)

/-- `_notify_trainers`: one mail to every FORMATEUR user plus every
linked team member; its own try/except. -/
def notify_trainers (emailOk : Bool) (st : Store) (c : Course) : List Email :=
  let recipients :=
    (st.users.filter (fun u => u.role == Role.FORMATEUR)).map User.email ++
    teamMemberEmails st c
  if emailOk then
    [{ subject := "Course Published: " ++ c.title, recipient_list := recipients }]
  else
    []

/-- `_notify_stakeholders`: email only — no Notification row — to every
ADMIN/RESPONSABLE user; one try/except around the loop. -/
def notify_stakeholders (emailOk : Bool) (users : List User) (c : Course) : List Email :=
  if emailOk then (users.filter isEvaluator).map (stakeholderEmail c) else []

/-- `_send_publish_notifications`: trainers, then subscribers, then
stakeholders; every exception is caught and logged, none escapes. -/
def send_publish_notifications (st : Store) (c : Course) (emailOk : Bool) : Store :=
  let te := notify_trainers emailOk st c
  let sub := notify_subscribers emailOk st.users st.relationships c
  let se := notify_stakeholders emailOk st.users c
  { st with
    notifications := st.notifications ++ sub.1,
    emails := st.emails ++ te ++ sub.2 ++ se }

/-! ## CourseViewSet actions (core/views.py) -/

def findCourse (st : Store) (pk : Nat) : Option Course :=
  st.courses.find? (fun c => c.id == pk)

/-- `CourseViewSet.get_queryset`: admins and department heads see every
course, every other user only the courses they created. -/
def visibleCourses (st : Store) (u : User) : List Course :=
  if u.is_admin || u.is_responsable then st.courses
  else st.courses.filter (fun c => c.created_by.id == u.id)

/-- `self.get_object()`: `get_object_or_404` against the role-scoped
queryset — a pk the actor's queryset does not contain is answered 404
before any status or permission check runs. -/
def getObject (st : Store) (u : User) (pk : Nat) : Option Course :=
  (visibleCourses st u).find? (fun c => c.id == pk)

/-- Status of the course with key `pk` as persisted in `st`. -/
def courseStatus (st : Store) (pk : Nat) : Option Status :=
  (findCourse st pk).map Course.status

/-- `CourseViewSet.destroy`: scoped lookup (404 on a miss), then only
DRAFT courses, only by the creator or an admin/responsable; returns the
HTTP code and the resulting store. -/
def CourseViewSet.destroy (st : Store) (request_user : User) (pk : Nat) : Nat × Store :=
  match getObject st request_user pk with
  | none => (404, st)
  | some instance_ =>
    if !(instance_.status == Status.DRAFT) then
      (400, st)
    else if !(instance_.created_by.id == request_user.id) &&
        !(request_user.is_admin || request_user.is_responsable) then
      (403, st)
    else
      (204, { st with courses := st.courses.filter (fun x => !(x.id == instance_.id)) })

/-- `CourseViewSet.submit`: scoped lookup (404 on a miss), DRAFT check,
ownership/role check, then `course.status = SUBMITTED; course.save()`.
An exception from `save` (a failing notification send) is caught and
answered with 500 — after the row was already committed. -/
def CourseViewSet.submit (st : Store) (request_user : User) (pk : Nat)
    (emailOk : Bool) : Nat × Store :=
  match getObject st request_user pk with
  | none => (404, st)
  | some course =>
    if !(course.status == Status.DRAFT) then
      (400, st)
    else if !(course.created_by.id == request_user.id) &&
        !(request_user.is_admin || request_user.is_responsable) then
      (403, st)
    else
      match Course.save st { course with status := Status.SUBMITTED } emailOk with
      | (true, st1) => (200, st1)
      | (false, st1) => (500, st1)

/-- `CourseViewSet.publish`: scoped lookup (404 on a miss), APPROVED
check, role check, then `course.status = PUBLISHED; course.save()` and
the fan-out (which swallows its own failures). -/
def CourseViewSet.publish (st : Store) (request_user : User) (pk : Nat)
    (emailOk : Bool) : Nat × Store :=
  match getObject st request_user pk with
  | none => (404, st)
  | some course =>
    if !(course.status == Status.APPROVED) then
      (400, st)
    else if !(request_user.is_admin || request_user.is_responsable) then
      (403, st)
    else
      match Course.save st { course with status := Status.PUBLISHED } emailOk with
      | (true, st1) =>
        (200, send_publish_notifications st1 { course with status := Status.PUBLISHED } emailOk)
      | (false, st1) => (500, st1)

/-- `n` publish attempts in a row on the same course, the `i`-th made by
`actors i`, each acting on the store the previous one left. -/
def publishAttempts (st : Store) (actors : Nat → User) (pk : Nat) (emailOk : Bool) :
    Nat → Store
  | 0 => st
  | n + 1 =>
    (CourseViewSet.publish (publishAttempts st actors pk emailOk n) (actors n) pk emailOk).2

/-! ## CourseSerializer (core/serializers.py) -/

/-- One entry of the `team_members` request list (TeamMemberSerializer
requires all three fields, so they are always present). -/
structure TeamMemberData where
  full_name : String
  qualification : String
  email : String
deriving DecidableEq, Repr

/-- The writable course fields as `validated_data` holds them on create.
`status`, `created_by`, `created_at`, `updated_at` are read-only on the
serializer, so DRF strips them from the validated data no matter what the
request body carried. -/
structure CourseInput where
  title : String
  description : String
  supplier_type : SupplierType
  duration : Int
  objectives : String
  expected_income : Option Int
  contents : String
  links : Option String
  submission_deadline : Option Int
  team_members : List TeamMemberData
deriving DecidableEq, Repr

/-- A raw create request: the writable payload plus whatever `status`
value the client tried to supply. -/
structure RawCreateRequest where
  payload : CourseInput
  requested_status : Option Status
deriving DecidableEq, Repr

/-- DRF's `to_internal_value` drops read-only fields: the requested
status never reaches `validated_data`. -/
def CourseSerializer.validated_create_data (r : RawCreateRequest) : CourseInput :=
  r.payload

/-- `validated_data` on (partial) update: each writable field may or may
not be present; `status` and `created_by` cannot be. -/
structure UpdateInput where
  title : Option String
  description : Option String
  supplier_type : Option SupplierType
  duration : Option Int
  objectives : Option String
  expected_income : Option (Option Int)
  contents : Option String
  links : Option (Option String)
  submission_deadline : Option (Option Int)
  team_members : Option (List TeamMemberData)
deriving DecidableEq, Repr

/-- A raw update request: writable payload plus an attempted `status`. -/
structure RawUpdateRequest where
  payload : UpdateInput
  requested_status : Option Status
deriving DecidableEq, Repr

def CourseSerializer.validated_update_data (r : RawUpdateRequest) : UpdateInput :=
  r.payload

/-- The `setattr` loop of `CourseSerializer.update`: write every field
`validated_data` provides.  `status` is not among them. -/
def applyUpdate (c : Course) (vd : UpdateInput) : Course :=
  { c with
    title := vd.title.getD c.title,
    description := vd.description.getD c.description,
    supplier_type := vd.supplier_type.getD c.supplier_type,
    duration := vd.duration.getD c.duration,
    objectives := vd.objectives.getD c.objectives,
    expected_income := vd.expected_income.getD c.expected_income,
    contents := vd.contents.getD c.contents,
    links := vd.links.getD c.links,
    submission_deadline := vd.submission_deadline.getD c.submission_deadline }

/-- `CourseTeam.objects.filter(course=course).delete()`. -/
def clearCourseTeams (st : Store) (cid : Nat) : Store :=
  { st with courseTeams := st.courseTeams.filter (fun ct => !(ct.course == cid)) }

/-- `member.save()` after overwriting name and qualification. -/
def updateTeamMember (st : Store) (m : TeamMember) : Store :=
  { st with teamMembers := st.teamMembers.map (fun x => if x.id == m.id then m else x) }

/-- The member row `TeamMember.objects.get_or_create` inserts when no row
has the email: it receives the next auto-increment id. -/
def freshMember (st : Store) (md : TeamMemberData) : TeamMember :=
  { id := st.nextTeamMemberId, full_name := md.full_name,
    qualification := md.qualification, email := md.email }

/-- The store after that insert. -/
def addFreshMember (st : Store) (md : TeamMemberData) : Store :=
  { st with
    teamMembers := st.teamMembers ++ [freshMember st md],
    nextTeamMemberId := st.nextTeamMemberId + 1 }

/-- The found member with name and qualification overwritten from the
descriptor (id and email untouched). -/
def overwrittenRecord (m0 : TeamMember) (md : TeamMemberData) : TeamMember :=
  { m0 with full_name := md.full_name, qualification := md.qualification }

/-- The store after the found member's name and qualification were
overwritten and saved. -/
def overwriteMember (st : Store) (m0 : TeamMember) (md : TeamMemberData) : Store :=
  updateTeamMember st (overwrittenRecord m0 md)

/-- The store after a successful `CourseTeam.objects.create`. -/
def addPairing (st : Store) (cid mid : Nat) : Store :=
  { st with courseTeams := st.courseTeams ++ [{ course := cid, team_member := mid }] }

/-- `CourseTeam.objects.create`: the `unique_together ('course',
'team_member')` constraint makes a duplicate insert raise IntegrityError,
which the serializer's blanket `except Exception` re-raises as a
ValidationError. -/
def createCourseTeam (st : Store) (cid mid : Nat) : Except ApiError Store :=
  if st.courseTeams.any (fun ct => ct.course == cid && ct.team_member == mid) then
    .error (.validation "Error processing team member: UNIQUE constraint failed")
  else
    .ok (addPairing st cid mid)

/-- The per-entry loop of `_handle_team_members`:
`TeamMember.objects.get_or_create(email=...)` (creating a fresh row when
no member has the email), the overwrite-and-save when the member already
existed, then `CourseTeam.objects.create`.  Effects already made persist
when an entry fails (there is no transaction), so the store is returned
alongside the error, and entries after the failing one are not
processed. -/
def handleTeamMembersLoop (cid : Nat) : Store → List TeamMemberData → Store × Option ApiError
  | st, [] => (st, none)
  | st, md :: rest =>
    match st.teamMembers.find? (fun m => m.email == md.email) with
    | none =>
      match createCourseTeam (addFreshMember st md) cid (freshMember st md).id with
      | .ok st2 => handleTeamMembersLoop cid st2 rest
      | .error e => (addFreshMember st md, some e)
    | some m0 =>
      match createCourseTeam (overwriteMember st m0 md) cid m0.id with
      | .ok st2 => handleTeamMembersLoop cid st2 rest
      | .error e => (overwriteMember st m0 md, some e)

/-- `CourseSerializer._handle_team_members`: clear every existing pairing
of the course, then find-or-create each member by email, overwrite its
name/qualification when it already existed, and (re)create the pairing. -/
def CourseSerializer.handle_team_members (st : Store) (course : Course)
    (mds : List TeamMemberData) : Store × Option ApiError :=
  handleTeamMembersLoop course.id (clearCourseTeams st course.id) mds

/-- Packaging of the roster step shared by create and update: a
ValidationError raised by `_handle_team_members` propagates out of the
serializer; otherwise the course instance is returned. -/
def attachRoster (st : Store) (course : Course) (mds : List TeamMemberData) :
    Store × Except ApiError Course :=
  match CourseSerializer.handle_team_members st course mds with
  | (st2, none) => (st2, .ok course)
  | (st2, some e) => (st2, .error e)

/-- `CourseSerializer.create`: role gate (a ValidationError, not a 403),
then `Course.objects.create(..., status=DRAFT)`, then the team roster.
`nextCourseId` stands for the course PK the database assigns. -/
def CourseSerializer.create (st : Store) (user : User) (vd : CourseInput)
    (nextCourseId : Nat) : Store × Except ApiError Course :=
  if !(user.is_formateur || user.is_responsable || user.is_admin) then
    (st, .error (.validation "Only trainers, department heads, or admins can create courses"))
  else
    attachRoster
      { st with courses := st.courses ++
          [{ id := nextCourseId, title := vd.title, description := vd.description,
             supplier_type := vd.supplier_type, status := Status.DRAFT,
             objectives := vd.objectives, contents := vd.contents,
             duration := vd.duration, expected_income := vd.expected_income,
             links := vd.links, submission_deadline := vd.submission_deadline,
             created_by := user }] }
      { id := nextCourseId, title := vd.title, description := vd.description,
        supplier_type := vd.supplier_type, status := Status.DRAFT,
        objectives := vd.objectives, contents := vd.contents,
        duration := vd.duration, expected_income := vd.expected_income,
        links := vd.links, submission_deadline := vd.submission_deadline,
        created_by := user }
      vd.team_members

/-- `CourseSerializer.update`: ownership/role gate (again a
ValidationError), the `setattr` loop, `instance.save()`, then the roster
when `team_members` was provided. -/
def CourseSerializer.update (st : Store) (user : User) (instance_ : Course)
    (vd : UpdateInput) (emailOk : Bool) : Store × Except ApiError Course :=
  if !(instance_.created_by.id == user.id) && !(user.is_admin || user.is_responsable) then
    (st, .error (.validation "You can only update courses you created"))
  else
    match vd.team_members with
    | none =>
      ((Course.save st (applyUpdate instance_ vd) emailOk).2, .ok (applyUpdate instance_ vd))
    | some mds =>
      attachRoster (Course.save st (applyUpdate instance_ vd) emailOk).2
        (applyUpdate instance_ vd) mds

/-- Number of persisted notifications addressed to user id `i`. -/
def countRecip (ns : List Notification) (i : Nat) : Nat :=
  (ns.filter (fun n => n.recipient == i)).length

/-- The notifications one active learner's turn of `_notify_subscribers`
persists: the learner's own, then one per active parent linked to the
learner. -/
def learnerBlock (c : Course) (rels : List ParentChildRelationship) (l : User) :
    List Notification :=
  learnerNotification c l ::
    ((rels.filter (fun r => r.child.id == l.id)).filter
      (fun r => r.parent.is_active)).map (fun r => parentNotification c l r.parent)

/-! ## Concrete fixtures for witnesses and counterexamples -/

def uFormateur : User :=
  { id := 1, email := "trainer@oets.example", first_name := "Fora",
    role := Role.FORMATEUR, is_active := true }

def uResponsable : User :=
  { id := 2, email := "head@oets.example", first_name := "Resa",
    role := Role.RESPONSABLE, is_active := true }

def uAdmin : User :=
  { id := 3, email := "admin@oets.example", first_name := "Ada",
    role := Role.ADMIN, is_active := true }

def uLearner : User :=
  { id := 4, email := "learner@oets.example", first_name := "Lea",
    role := Role.LEARNER, is_active := true }

def uParent : User :=
  { id := 5, email := "parent@oets.example", first_name := "Pat",
    role := Role.PARENT, is_active := true }

def draftCourse : Course :=
  { id := 10, title := "Intro to French", description := "Basics of French",
    supplier_type := SupplierType.INTERNAL, status := Status.DRAFT,
    objectives := "Speak French", contents := "Textbook A",
    duration := 86400, expected_income := none, links := none,
    submission_deadline := some 100, created_by := uFormateur }

def approvedCourse : Course :=
  { draftCourse with id := 11, status := Status.APPROVED, submission_deadline := none }

def blankCourse : Course :=
  { draftCourse with id := 12, description := " " }

def demoStore : Store :=
  { users := [uFormateur, uResponsable, uAdmin, uLearner, uParent],
    courses := [draftCourse, approvedCourse, blankCourse],
    relationships :=
      [{ parent := uParent, child := uLearner, relationship := "Parent/Guardian" }],
    teamMembers := [], courseTeams := [], notifications := [], emails := [],
    nextTeamMemberId := 1 }

/-- Demo create payload (no team members). -/
def demoCreateInput : CourseInput :=
  { title := "Leadership", description := "Management basics",
    supplier_type := SupplierType.INTERNAL, duration := 3600,
    objectives := "Lead teams", expected_income := none, contents := "Slides",
    links := none, submission_deadline := none, team_members := [] }

/-- Demo create request that tries to smuggle in a PUBLISHED status. -/
def demoRawCreate : RawCreateRequest :=
  { payload := demoCreateInput, requested_status := some Status.PUBLISHED }

/-- Demo update request that tries to smuggle in a PUBLISHED status. -/
def demoRawUpdate : RawUpdateRequest :=
  { payload :=
      { title := some "Intro to French II", description := none, supplier_type := none,
        duration := none, objectives := none, expected_income := none,
        contents := none, links := none, submission_deadline := none,
        team_members := none },
    requested_status := some Status.PUBLISHED }

/-- Invariants the database guarantees for the team tables: email is a
key (unique constraint on TeamMember.email), the primary key is a key,
primary keys stay below the auto-increment counter, and every CourseTeam
row references an existing member. -/
def Store.teamWF (st : Store) : Prop :=
  (∀ m1 ∈ st.teamMembers, ∀ m2 ∈ st.teamMembers, m1.email = m2.email → m1 = m2) ∧
  (∀ m1 ∈ st.teamMembers, ∀ m2 ∈ st.teamMembers, m1.id = m2.id → m1 = m2) ∧
  (∀ m ∈ st.teamMembers, m.id < st.nextTeamMemberId) ∧
  (∀ ct ∈ st.courseTeams, ∃ m ∈ st.teamMembers, m.id = ct.team_member)

/-- Some member with this email is already paired to the course. -/
def EmailPaired (st : Store) (cid : Nat) (e : String) : Prop :=
  ∃ ct ∈ st.courseTeams, ct.course = cid ∧
    ∃ m ∈ st.teamMembers, m.id = ct.team_member ∧ m.email = e

/-- Roster descriptors for the duplicate-email scenario. -/
def mdA1 : TeamMemberData :=
  { full_name := "Alice Smith", qualification := "DELF B2", email := "alice@x.example" }

def mdA2 : TeamMemberData :=
  { full_name := "Alice B. Smith", qualification := "DALF C1", email := "alice@x.example" }

def mdB : TeamMemberData :=
  { full_name := "Bob Jones", qualification := "CELTA", email := "bob@x.example" }

/-! ## Helper lemmas -/

theorem find?_updateCourseList (cs : List Course) (pk : Nat) (course c : Course)
    (hfind : cs.find? (fun x => x.id == pk) = some course) (hid : c.id = course.id) :
    (updateCourseList cs c).find? (fun x => x.id == pk) = some c := by
  induction cs with
  | nil => simp at hfind
  | cons a l ih =>
    rw [List.find?_cons] at hfind
    simp only [updateCourseList, List.map_cons]
    cases hb : (a.id == pk) with
    | true =>
      rw [hb] at hfind
      simp only [Option.some.injEq] at hfind
      have h1 : (a.id == c.id) = true := by simp [hid, hfind]
      rw [if_pos h1, List.find?_cons]
      have h2 : (c.id == pk) = true := by
        rw [hid, ← hfind]
        exact hb
      rw [h2]
    | false =>
      rw [hb] at hfind
      have hcpk : (course.id == pk) = true := by simpa using List.find?_some hfind
      have hc2 : c.id = pk := hid.trans (by simpa using hcpk)
      have h1 : (a.id == c.id) = false := by
        rw [hc2]
        exact hb
      rw [if_neg (by simp [h1]), List.find?_cons, hb]
      exact ih hfind

theorem Course.save_courses (st : Store) (c : Course) (emailOk : Bool) :
    ((Course.save st c emailOk).2).courses = updateCourseList st.courses c := by
  unfold Course.save
  split
  · split <;> rfl
  · rfl

theorem Course.save_notifications (st : Store) (c : Course) (emailOk : Bool) :
    ((Course.save st c emailOk).2).notifications = st.notifications := by
  unfold Course.save
  split
  · split <;> rfl
  · rfl

theorem key_of_nodup {α β : Type} (f : α → β) (l : List α)
    (h : (l.map f).Nodup) :
    ∀ a ∈ l, ∀ b ∈ l, f a = f b → a = b := by
  induction l with
  | nil =>
    intro a ha
    simp at ha
  | cons x l ih =>
    rw [List.map_cons, List.nodup_cons] at h
    intro a ha b hb hfab
    rcases List.mem_cons.mp ha with h1 | h1 <;> rcases List.mem_cons.mp hb with h2 | h2
    · rw [h1, h2]
    · exfalso
      apply h.1
      rw [h1] at hfab
      rw [hfab]
      exact List.mem_map_of_mem f h2
    · exfalso
      apply h.1
      rw [h2] at hfab
      rw [← hfab]
      exact List.mem_map_of_mem f h1
    · exact ih h.2 a h1 b h2 hfab

/-- A `find?` hit that satisfies the filter predicate survives
filtering: no earlier element can shadow it, since none earlier
satisfies the search predicate at all. -/
theorem find?_filter_of_find? {α : Type} (p q : α → Bool) (l : List α) (a : α)
    (h : l.find? p = some a) (hq : q a = true) :
    (l.filter q).find? p = some a := by
  induction l with
  | nil => simp at h
  | cons x l ih =>
    rw [List.find?_cons] at h
    cases hb : (p x) with
    | true =>
      rw [hb] at h
      simp only [Option.some.injEq] at h
      have hqx : q x = true := by rw [h]; exact hq
      rw [List.filter_cons, if_pos hqx, List.find?_cons, hb]
      exact congrArg some h
    | false =>
      rw [hb] at h
      rw [List.filter_cons]
      by_cases hqx : (q x) = true
      · rw [if_pos hqx, List.find?_cons, hb]
        exact ih h
      · rw [if_neg hqx]
        exact ih h

/-- For the course's creator, or for an ADMIN/RESPONSABLE, the scoped
`get_object` lookup agrees with the raw pk lookup. -/
theorem getObject_of_permitted (st : Store) (u : User) (pk : Nat) (course : Course)
    (hfind : findCourse st pk = some course)
    (hperm : course.created_by.id = u.id ∨ u.role = Role.ADMIN ∨
      u.role = Role.RESPONSABLE) :
    getObject st u pk = some course := by
  unfold getObject visibleCourses
  by_cases hrole : (u.is_admin || u.is_responsable) = true
  · rw [if_pos hrole]
    exact hfind
  · rw [if_neg hrole]
    rcases hperm with h | h | h
    · exact find?_filter_of_find? _ _ st.courses course hfind (by simp [h])
    · exact absurd
        (by simp [User.is_admin, h] : (u.is_admin || u.is_responsable) = true) hrole
    · exact absurd
        (by simp [User.is_responsable, h] : (u.is_admin || u.is_responsable) = true)
        hrole

/-- The scoped lookup answers `none` — HTTP 404 — when the pk row exists
but belongs to someone else and the actor is neither ADMIN nor
RESPONSABLE (primary keys being unique). -/
theorem getObject_none_out_of_scope (st : Store) (u : User) (pk : Nat)
    (course : Course)
    (HCID : (st.courses.map Course.id).Nodup)
    (hfind : findCourse st pk = some course)
    (hnc : course.created_by.id ≠ u.id)
    (hna : u.role ≠ Role.ADMIN) (hnr : u.role ≠ Role.RESPONSABLE) :
    getObject st u pk = none := by
  unfold getObject visibleCourses
  have hrole : (u.is_admin || u.is_responsable) = false := by
    simp [User.is_admin, User.is_responsable, hna, hnr]
  rw [if_neg (by simp [hrole])]
  rw [List.find?_eq_none]
  intro x hx hpx
  obtain ⟨hxmem, hxq⟩ := List.mem_filter.mp hx
  have hxpk : x.id = pk := by simpa using hpx
  have hcmem : course ∈ st.courses := List.mem_of_find?_eq_some hfind
  have hcpk : course.id = pk := by simpa using List.find?_some hfind
  have hxc : x = course := key_of_nodup Course.id st.courses HCID x hxmem course hcmem
    (by rw [hxpk, hcpk])
  rw [hxc] at hxq
  exact hnc (by simpa using hxq)

/-- Whatever the scoped lookup returns belongs to the actor unless the
actor is ADMIN or RESPONSABLE. -/
theorem getObject_scope (st : Store) (u : User) (pk : Nat) (course : Course)
    (h : getObject st u pk = some course) :
    (u.is_admin || u.is_responsable) = true ∨ course.created_by.id = u.id := by
  unfold getObject visibleCourses at h
  by_cases hrole : (u.is_admin || u.is_responsable) = true
  · exact Or.inl hrole
  · rw [if_neg hrole] at h
    have hmem := List.mem_of_find?_eq_some h
    have hq := (List.mem_filter.mp hmem).2
    exact Or.inr (by simpa using hq)

/-- With unique primary keys, a scoped lookup for an existing pk either
misses (404) or returns exactly the pk row. -/
theorem getObject_sub (st : Store) (u : User) (pk : Nat) (course : Course)
    (HCID : (st.courses.map Course.id).Nodup)
    (hfind : findCourse st pk = some course) :
    getObject st u pk = none ∨ getObject st u pk = some course := by
  cases hg : getObject st u pk with
  | none => exact Or.inl rfl
  | some c =>
    right
    have hmem : c ∈ visibleCourses st u := List.mem_of_find?_eq_some hg
    have hmem2 : c ∈ st.courses := by
      unfold visibleCourses at hmem
      by_cases hrole : (u.is_admin || u.is_responsable) = true
      · rw [if_pos hrole] at hmem
        exact hmem
      · rw [if_neg hrole] at hmem
        exact (List.mem_filter.mp hmem).1
    have hcpk : c.id = pk := by simpa using List.find?_some hg
    have hcmem : course ∈ st.courses := List.mem_of_find?_eq_some hfind
    have hcpk2 : course.id = pk := by simpa using List.find?_some hfind
    have : c = course := key_of_nodup Course.id st.courses HCID c hmem2 course hcmem
      (by rw [hcpk, hcpk2])
    rw [this]

theorem send_publish_notifications_courses (st : Store) (c : Course) (emailOk : Bool) :
    (send_publish_notifications st c emailOk).courses = st.courses := by
  unfold send_publish_notifications
  rfl

/-- The roster loop touches only `teamMembers`, `courseTeams` and the id
counter: every other store component is left as it was. -/
theorem handleTeamMembersLoop_frame (cid : Nat) (mds : List TeamMemberData) (st : Store) :
    (handleTeamMembersLoop cid st mds).1.courses = st.courses ∧
    (handleTeamMembersLoop cid st mds).1.users = st.users ∧
    (handleTeamMembersLoop cid st mds).1.notifications = st.notifications ∧
    (handleTeamMembersLoop cid st mds).1.emails = st.emails := by
  induction mds generalizing st with
  | nil => exact ⟨rfl, rfl, rfl, rfl⟩
  | cons md rest ih =>
    cases hf : st.teamMembers.find? (fun m => m.email == md.email) with
    | none =>
      by_cases hany : (st.courseTeams.any (fun ct => ct.course == cid &&
          ct.team_member == st.nextTeamMemberId)) = true
      · simp [handleTeamMembersLoop, hf, createCourseTeam, addFreshMember,
          freshMember, addPairing, hany]
      · simp only [Bool.not_eq_true] at hany
        simp [handleTeamMembersLoop, hf, createCourseTeam, addFreshMember,
          freshMember, addPairing, hany]
        exact ih _
    | some m0 =>
      by_cases hany : (st.courseTeams.any (fun ct => ct.course == cid &&
          ct.team_member == m0.id)) = true
      · simp [handleTeamMembersLoop, hf, createCourseTeam, overwriteMember,
          updateTeamMember, addPairing, hany]
      · simp only [Bool.not_eq_true] at hany
        simp [handleTeamMembersLoop, hf, createCourseTeam, overwriteMember,
          updateTeamMember, addPairing, hany]
        exact ih _

/-- `_handle_team_members` never touches the courses table (nor users,
notifications, emails). -/
theorem handle_team_members_frame (st : Store) (course : Course)
    (mds : List TeamMemberData) :
    (CourseSerializer.handle_team_members st course mds).1.courses = st.courses ∧
    (CourseSerializer.handle_team_members st course mds).1.users = st.users ∧
    (CourseSerializer.handle_team_members st course mds).1.notifications =
      st.notifications ∧
    (CourseSerializer.handle_team_members st course mds).1.emails = st.emails := by
  unfold CourseSerializer.handle_team_members
  exact handleTeamMembersLoop_frame course.id mds (clearCourseTeams st course.id)

/-- Saving a course whose status did not change performs the UPDATE and
sends nothing. -/
theorem Course.save_same_status (st : Store) (c : Course) (emailOk : Bool)
    (course : Course)
    (hfind : st.courses.find? (fun x => x.id == c.id) = some course)
    (hstat : c.status = course.status) :
    Course.save st c emailOk =
      (true, { st with courses := updateCourseList st.courses c }) := by
  unfold Course.save
  rw [hfind]
  by_cases hs : c.status = Status.SUBMITTED
  · have hcs : course.status = Status.SUBMITTED := hstat ▸ hs
    simp [hs, hcs]
  · simp [hs]

/-- Saving a course that just turned SUBMITTED: with working email the
confirmation and alert mails go out, with failing email the exception
escapes after the UPDATE was already committed. -/
theorem Course.save_newly_submitted (st : Store) (c : Course) (course : Course)
    (hfind : st.courses.find? (fun x => x.id == c.id) = some course)
    (hold : course.status ≠ Status.SUBMITTED) (hsub : c.status = Status.SUBMITTED) :
    Course.save st c true =
      (true,
        { st with
          courses := updateCourseList st.courses c,
          emails := st.emails ++ submissionConfirmEmail c ::
            (st.users.filter isEvaluator).map (evaluatorAlertEmail c) }) ∧
    Course.save st c false =
      (false, { st with courses := updateCourseList st.courses c }) := by
  unfold Course.save Course.send_notifications
  rw [hfind]
  have hcond : (c.status == Status.SUBMITTED &&
      !(Option.map Course.status (some course) == some Status.SUBMITTED)) = true := by
    simp [hsub, hold]
  rw [hcond]
  exact ⟨rfl, rfl⟩

/-- A permitted submit of a DRAFT course: the row is committed with
status SUBMITTED; with working email the response is 200 and the
confirmation/alert mails are logged, with failing email the response is
500 and no mail goes out; in both cases no Notification row is ever
written. -/
theorem submit_draft_permitted (st : Store) (actor : User) (pk : Nat) (emailOk : Bool)
    (course : Course) (hfind : findCourse st pk = some course)
    (hdraft : course.status = Status.DRAFT)
    (hperm : course.created_by.id = actor.id ∨ actor.role = Role.ADMIN ∨
      actor.role = Role.RESPONSABLE) :
    (CourseViewSet.submit st actor pk emailOk).1 = (if emailOk then 200 else 500) ∧
    courseStatus (CourseViewSet.submit st actor pk emailOk).2 pk = some Status.SUBMITTED ∧
    (CourseViewSet.submit st actor pk emailOk).2.notifications = st.notifications ∧
    (CourseViewSet.submit st actor pk emailOk).2.emails =
      (if emailOk then
        st.emails ++ submissionConfirmEmail course ::
          (st.users.filter isEvaluator).map (evaluatorAlertEmail course)
      else st.emails) := by
  have hpk : course.id = pk := by simpa using List.find?_some hfind
  have hfind2 : st.courses.find? (fun x => x.id == course.id) = some course := by
    rw [hpk]
    exact hfind
  have hd : (!(course.status == Status.DRAFT)) = false := by simp [hdraft]
  have hp : (!(course.created_by.id == actor.id) &&
      !(actor.is_admin || actor.is_responsable)) = false := by
    rcases hperm with h | h | h <;> simp [User.is_admin, User.is_responsable, h]
  have hget : getObject st actor pk = some course :=
    getObject_of_permitted st actor pk course hfind hperm
  have hsv := Course.save_newly_submitted st
    { course with status := Status.SUBMITTED } course hfind2
    (by rw [hdraft]; intro hcontra; cases hcontra) rfl
  have hcs : courseStatus
      { st with
        courses := updateCourseList st.courses ({ course with status := Status.SUBMITTED }) }
      pk = some Status.SUBMITTED := by
    unfold courseStatus findCourse
    have hup := find?_updateCourseList st.courses pk course
      { course with status := Status.SUBMITTED } hfind rfl
    rw [show ({ st with
      courses := updateCourseList st.courses ({ course with status := Status.SUBMITTED }) } :
        Store).courses = updateCourseList st.courses
          ({ course with status := Status.SUBMITTED }) from rfl]
    rw [hup]
    rfl
  cases emailOk with
  | true =>
    unfold CourseViewSet.submit
    rw [hget]
    simp only [hd, hp, Bool.false_eq_true, if_false]
    rw [hsv.1]
    refine ⟨rfl, ?_, rfl, rfl⟩
    exact hcs
  | false =>
    unfold CourseViewSet.submit
    rw [hget]
    simp only [hd, hp, Bool.false_eq_true, if_false]
    rw [hsv.2]
    refine ⟨rfl, ?_, rfl, rfl⟩
    exact hcs

/-- A publish by an ADMIN or RESPONSABLE on an APPROVED course answers
200 and persists status PUBLISHED — whether or not email delivery
works, since the fan-out swallows its own failures. -/
theorem publish_approved_role (st : Store) (actor : User) (pk : Nat) (emailOk : Bool)
    (course : Course) (hfind : findCourse st pk = some course)
    (hst : course.status = Status.APPROVED)
    (hrole : actor.role = Role.ADMIN ∨ actor.role = Role.RESPONSABLE) :
    (CourseViewSet.publish st actor pk emailOk).1 = 200 ∧
    courseStatus (CourseViewSet.publish st actor pk emailOk).2 pk =
      some Status.PUBLISHED := by
  have hokrole : (actor.is_admin || actor.is_responsable) = true := by
    rcases hrole with h | h <;> simp [User.is_admin, User.is_responsable, h]
  have hget : getObject st actor pk = some course :=
    getObject_of_permitted st actor pk course hfind (Or.inr hrole)
  unfold CourseViewSet.publish
  rw [hget]
  simp only [hst, beq_self_eq_true, Bool.not_true, Bool.false_eq_true, if_false,
    hokrole]
  have hsv : ∀ c2 : Course, c2.status = Status.PUBLISHED →
      Course.save st c2 emailOk =
        (true, { st with courses := updateCourseList st.courses c2 }) := by
    intro c2 hc2
    unfold Course.save
    simp [hc2]
  rw [hsv _ rfl]
  refine ⟨rfl, ?_⟩
  unfold courseStatus findCourse
  rw [send_publish_notifications_courses]
  have hup := find?_updateCourseList st.courses pk course
    { course with status := Status.PUBLISHED } hfind rfl
  simp only [hup]
  rfl

/-- `Course.clean` rejects a SUBMITTED course whose deadline has
passed. -/
theorem clean_late (c : Course) (now d : Int) (hs : c.status = Status.SUBMITTED)
    (hd : c.submission_deadline = some d) (h : d < now) :
    Course.clean c now = Except.error "Cannot submit after deadline" := by
  unfold Course.clean
  rw [hd]
  simp [hs, h]

/-- A publish attempt on a non-APPROVED course the actor can see answers
400 and leaves the store untouched. -/
theorem publish_nonapproved (st : Store) (actor : User) (pk : Nat) (emailOk : Bool)
    (course : Course) (hget : getObject st actor pk = some course)
    (hst : course.status ≠ Status.APPROVED) :
    CourseViewSet.publish st actor pk emailOk = (400, st) := by
  unfold CourseViewSet.publish
  rw [hget]
  have : (course.status == Status.APPROVED) = false := by
    simpa using hst
  simp [this]

/-- A publish attempt by an actor whose scoped lookup misses the pk
answers 404 and leaves the store untouched. -/
theorem publish_miss (st : Store) (actor : User) (pk : Nat) (emailOk : Bool)
    (hget : getObject st actor pk = none) :
    CourseViewSet.publish st actor pk emailOk = (404, st) := by
  unfold CourseViewSet.publish
  rw [hget]

/-! ## Claim theorems -/

/-- C1 (amended): the publish endpoint never succeeds unless the course
is APPROVED, but the failure kind depends on visibility: an actor
outside the course's role-scoped queryset is answered 404 (store
untouched); a scoped actor — creator, ADMIN or RESPONSABLE — publishing
a non-APPROVED course is answered 400 (store untouched); an ADMIN or
RESPONSABLE publishing an APPROVED course gets 200 and the persisted
status becomes PUBLISHED; and from a non-approved state any number of
retries, by any actors, leaves the store unchanged and never returns
200. -/
theorem publish_only_from_approved (st : Store) (actor : User) (pk : Nat)
    (emailOk : Bool) (course : Course)
    (HCID : (st.courses.map Course.id).Nodup)
    (hfind : findCourse st pk = some course) :
    (course.created_by.id ≠ actor.id → actor.role ≠ Role.ADMIN →
      actor.role ≠ Role.RESPONSABLE →
      CourseViewSet.publish st actor pk emailOk = (404, st)) ∧
    (course.status ≠ Status.APPROVED →
      (course.created_by.id = actor.id ∨ actor.role = Role.ADMIN ∨
        actor.role = Role.RESPONSABLE) →
      CourseViewSet.publish st actor pk emailOk = (400, st)) ∧
    ((actor.role = Role.ADMIN ∨ actor.role = Role.RESPONSABLE) →
      course.status = Status.APPROVED →
      (CourseViewSet.publish st actor pk emailOk).1 = 200 ∧
      courseStatus (CourseViewSet.publish st actor pk emailOk).2 pk =
        some Status.PUBLISHED) ∧
    (course.status ≠ Status.APPROVED → ∀ (n : Nat) (actors : Nat → User),
      publishAttempts st actors pk emailOk n = st ∧
      (CourseViewSet.publish (publishAttempts st actors pk emailOk n) (actors n) pk
        emailOk).1 ≠ 200) := by
  have hone : ∀ a : User, course.status ≠ Status.APPROVED →
      CourseViewSet.publish st a pk emailOk = (404, st) ∨
      CourseViewSet.publish st a pk emailOk = (400, st) := by
    intro a hst
    rcases getObject_sub st a pk course HCID hfind with hg | hg
    · exact Or.inl (publish_miss st a pk emailOk hg)
    · exact Or.inr (publish_nonapproved st a pk emailOk course hg hst)
  refine ⟨?_, ?_, ?_, ?_⟩
  · intro h1 h2 h3
    exact publish_miss st actor pk emailOk
      (getObject_none_out_of_scope st actor pk course HCID hfind h1 h2 h3)
  · intro hst hperm
    exact publish_nonapproved st actor pk emailOk course
      (getObject_of_permitted st actor pk course hfind hperm) hst
  · intro hrole hst
    exact publish_approved_role st actor pk emailOk course hfind hst hrole
  · intro hst n actors
    induction n with
    | zero =>
      refine ⟨rfl, ?_⟩
      rw [show publishAttempts st actors pk emailOk 0 = st from rfl]
      rcases hone (actors 0) hst with h | h
      · rw [h]
        show (404 : Nat) ≠ 200
        decide
      · rw [h]
        show (400 : Nat) ≠ 200
        decide
    | succ m ih =>
      have h1 : publishAttempts st actors pk emailOk (m + 1) = st := by
        show (CourseViewSet.publish (publishAttempts st actors pk emailOk m)
          (actors m) pk emailOk).2 = st
        rw [ih.1]
        rcases hone (actors m) hst with h | h <;> rw [h]
      refine ⟨h1, ?_⟩
      rw [h1]
      rcases hone (actors (m + 1)) hst with h | h
      · rw [h]
        show (404 : Nat) ≠ 200
        decide
      · rw [h]
        show (400 : Nat) ≠ 200
        decide

/-- Witness for C1 (amended): the ADMIN publishes the approved course
(id 11); the creator of the draft course (id 10) gets 400 on it; the
learner, outside that course's scope, gets 404. -/
theorem publish_only_from_approved_witness :
    (CourseViewSet.publish demoStore uAdmin 11 true).1 = 200 ∧
    courseStatus (CourseViewSet.publish demoStore uAdmin 11 true).2 11 =
      some Status.PUBLISHED ∧
    CourseViewSet.publish demoStore uFormateur 10 true = (400, demoStore) ∧
    CourseViewSet.publish demoStore uLearner 10 true = (404, demoStore) := by
  have h11 : findCourse demoStore 11 = some approvedCourse := by decide
  have h10 : findCourse demoStore 10 = some draftCourse := by decide
  have ha := (publish_only_from_approved demoStore uAdmin 11 true approvedCourse
    (by decide) h11).2.2.1 (Or.inl rfl) rfl
  have hb := (publish_only_from_approved demoStore uFormateur 10 true draftCourse
    (by decide) h10).2.1 (by decide) (Or.inl (by decide))
  have hc := (publish_only_from_approved demoStore uLearner 10 true draftCourse
    (by decide) h10).1 (by decide) (by decide) (by decide)
  exact ⟨ha.1, ha.2, hb, hc⟩

/-- C1 counterexample: a non-creator without ADMIN/RESPONSABLE role who
calls publish on someone else's non-approved course is answered 404 —
the role-scoped queryset hides the course — not the 400-equivalent
validation failure the claim promises for every actor. -/
theorem publish_out_of_scope_is_404 :
    CourseViewSet.publish demoStore uLearner 12 true = (404, demoStore) := by
  decide

/-- C4: destroy answers 400 when the course is not DRAFT — also for an
ADMIN; an actor who is neither the creator nor ADMIN/RESPONSABLE never
reaches the course at all (the role-scoped queryset answers 404); the
call succeeds (204) exactly when the course is DRAFT and the actor is
its creator or an ADMIN/RESPONSABLE; and every non-204 outcome leaves
the store unchanged, so the course is still there. -/
theorem destroy_draft_only (st : Store) (actor : User) (pk : Nat) (course : Course)
    (HCID : (st.courses.map Course.id).Nodup)
    (hfind : findCourse st pk = some course) :
    (course.status ≠ Status.DRAFT →
      (course.created_by.id = actor.id ∨ actor.role = Role.ADMIN ∨
        actor.role = Role.RESPONSABLE) →
      CourseViewSet.destroy st actor pk = (400, st)) ∧
    (course.created_by.id ≠ actor.id → actor.role ≠ Role.ADMIN →
      actor.role ≠ Role.RESPONSABLE →
      CourseViewSet.destroy st actor pk = (404, st)) ∧
    ((CourseViewSet.destroy st actor pk).1 = 204 ↔
      (course.status = Status.DRAFT ∧ (course.created_by.id = actor.id ∨
        actor.role = Role.ADMIN ∨ actor.role = Role.RESPONSABLE))) ∧
    ((CourseViewSet.destroy st actor pk).1 ≠ 204 →
      (CourseViewSet.destroy st actor pk).2 = st) := by
  have hout400 : course.status ≠ Status.DRAFT →
      (course.created_by.id = actor.id ∨ actor.role = Role.ADMIN ∨
        actor.role = Role.RESPONSABLE) →
      CourseViewSet.destroy st actor pk = (400, st) := by
    intro h hperm
    unfold CourseViewSet.destroy
    rw [getObject_of_permitted st actor pk course hfind hperm]
    simp [h]
  have hout404 : course.created_by.id ≠ actor.id → actor.role ≠ Role.ADMIN →
      actor.role ≠ Role.RESPONSABLE →
      CourseViewSet.destroy st actor pk = (404, st) := by
    intro h1 h2 h3
    unfold CourseViewSet.destroy
    rw [getObject_none_out_of_scope st actor pk course HCID hfind h1 h2 h3]
  have hout204 : course.status = Status.DRAFT →
      (course.created_by.id = actor.id ∨ actor.role = Role.ADMIN ∨
        actor.role = Role.RESPONSABLE) →
      (CourseViewSet.destroy st actor pk).1 = 204 := by
    intro h1 h2
    unfold CourseViewSet.destroy
    rw [getObject_of_permitted st actor pk course hfind h2]
    rcases h2 with h | h | h <;> simp [h1, h, User.is_admin, User.is_responsable]
  refine ⟨hout400, hout404, ⟨?_, fun h => hout204 h.1 h.2⟩, ?_⟩
  · intro h204
    by_cases hperm : course.created_by.id = actor.id ∨ actor.role = Role.ADMIN ∨
        actor.role = Role.RESPONSABLE
    · by_cases hst : course.status = Status.DRAFT
      · exact ⟨hst, hperm⟩
      · rw [hout400 hst hperm] at h204
        simp at h204
    · push_neg at hperm
      rw [hout404 hperm.1 hperm.2.1 hperm.2.2] at h204
      simp at h204
  · intro hne
    by_cases hperm : course.created_by.id = actor.id ∨ actor.role = Role.ADMIN ∨
        actor.role = Role.RESPONSABLE
    · by_cases hst : course.status = Status.DRAFT
      · exact absurd (hout204 hst hperm) hne
      · rw [hout400 hst hperm]
    · push_neg at hperm
      rw [hout404 hperm.1 hperm.2.1 hperm.2.2]

/-- Witness for C4: the ADMIN cannot delete the approved course (400),
the learner does not even see another user's draft (404), the creator
deletes their own draft (204). -/
theorem destroy_draft_only_witness :
    CourseViewSet.destroy demoStore uAdmin 11 = (400, demoStore) ∧
    CourseViewSet.destroy demoStore uLearner 10 = (404, demoStore) ∧
    (CourseViewSet.destroy demoStore uFormateur 10).1 = 204 := by
  have h11 : findCourse demoStore 11 = some approvedCourse := by decide
  have h10 : findCourse demoStore 10 = some draftCourse := by decide
  refine ⟨(destroy_draft_only demoStore uAdmin 11 approvedCourse (by decide) h11).1
      (by decide) (Or.inr (Or.inl rfl)),
    (destroy_draft_only demoStore uLearner 10 draftCourse (by decide) h10).2.1
      (by decide) (by decide) (by decide),
    ?_⟩
  exact ((destroy_draft_only demoStore uFormateur 10 draftCourse
    (by decide) h10).2.2.1).mpr ⟨by decide, Or.inl (by decide)⟩

/-- What `attachRoster` can return: the store of the roster step, and
either the very course that was passed in or the roster error. -/
theorem attachRoster_spec (st : Store) (course : Course) (mds : List TeamMemberData) :
    (attachRoster st course mds).1 = (CourseSerializer.handle_team_members st course mds).1 ∧
    ((attachRoster st course mds).2 = Except.ok course ∨
      ∃ e, (attachRoster st course mds).2 = Except.error e) := by
  unfold attachRoster
  cases h : CourseSerializer.handle_team_members st course mds with
  | mk st2 err =>
    cases err with
    | none => exact ⟨rfl, Or.inl rfl⟩
    | some e => exact ⟨rfl, Or.inr ⟨e, rfl⟩⟩

/-- C5: whatever status value a create request supplies, the serializer
discards it (the field is read-only) and any course the create operation
persists carries status DRAFT; and a serializer update returns and
persists the instance with its status unchanged, again whatever status
the request supplied. -/
theorem created_draft_status_readonly (st : Store) (actor : User)
    (r : RawCreateRequest) (nid : Nat) (instance_ : Course) (ru : RawUpdateRequest)
    (emailOk : Bool)
    (hfind : findCourse st instance_.id = some instance_) :
    (∀ c, (CourseSerializer.create st actor (CourseSerializer.validated_create_data r)
        nid).2 = Except.ok c →
      c.status = Status.DRAFT ∧
      (CourseSerializer.create st actor (CourseSerializer.validated_create_data r)
        nid).1.courses = st.courses ++ [c]) ∧
    (∀ c, (CourseSerializer.update st actor instance_
        (CourseSerializer.validated_update_data ru) emailOk).2 = Except.ok c →
      c.status = instance_.status) ∧
    courseStatus (CourseSerializer.update st actor instance_
      (CourseSerializer.validated_update_data ru) emailOk).1 instance_.id =
      some instance_.status := by
  have hsvc : ∀ vd : UpdateInput,
      ((Course.save st (applyUpdate instance_ vd) emailOk).2).courses.find?
        (fun x => x.id == instance_.id) = some (applyUpdate instance_ vd) := by
    intro vd
    rw [Course.save_courses]
    exact find?_updateCourseList st.courses instance_.id instance_
      (applyUpdate instance_ vd) hfind rfl
  refine ⟨?_, ?_, ?_⟩
  · intro c hc
    unfold CourseSerializer.create at hc ⊢
    by_cases hrole : (actor.is_formateur || actor.is_responsable || actor.is_admin) = true
    · rw [hrole] at hc ⊢
      simp only [Bool.not_true, Bool.false_eq_true, if_false] at hc ⊢
      have hsp := attachRoster_spec
        { st with courses := st.courses ++
            [{ id := nid, title := (CourseSerializer.validated_create_data r).title,
               description := (CourseSerializer.validated_create_data r).description,
               supplier_type := (CourseSerializer.validated_create_data r).supplier_type,
               status := Status.DRAFT,
               objectives := (CourseSerializer.validated_create_data r).objectives,
               contents := (CourseSerializer.validated_create_data r).contents,
               duration := (CourseSerializer.validated_create_data r).duration,
               expected_income := (CourseSerializer.validated_create_data r).expected_income,
               links := (CourseSerializer.validated_create_data r).links,
               submission_deadline :=
                 (CourseSerializer.validated_create_data r).submission_deadline,
               created_by := actor }] }
        { id := nid, title := (CourseSerializer.validated_create_data r).title,
          description := (CourseSerializer.validated_create_data r).description,
          supplier_type := (CourseSerializer.validated_create_data r).supplier_type,
          status := Status.DRAFT,
          objectives := (CourseSerializer.validated_create_data r).objectives,
          contents := (CourseSerializer.validated_create_data r).contents,
          duration := (CourseSerializer.validated_create_data r).duration,
          expected_income := (CourseSerializer.validated_create_data r).expected_income,
          links := (CourseSerializer.validated_create_data r).links,
          submission_deadline :=
            (CourseSerializer.validated_create_data r).submission_deadline,
          created_by := actor }
        (CourseSerializer.validated_create_data r).team_members
      rcases hsp.2 with hok | ⟨e, herr⟩
      · rw [hok] at hc
        have hcc := (Except.ok.injEq _ _).mp hc
        refine ⟨by rw [← hcc], ?_⟩
        rw [hsp.1, (handle_team_members_frame _ _ _).1, ← hcc]
      · rw [herr] at hc
        simp at hc
    · rw [Bool.not_eq_true] at hrole
      rw [hrole] at hc
      simp at hc
  · intro c hc
    unfold CourseSerializer.update at hc
    by_cases hgate : (!(instance_.created_by.id == actor.id) &&
        !(actor.is_admin || actor.is_responsable)) = true
    · rw [hgate] at hc
      simp at hc
    · rw [Bool.not_eq_true] at hgate
      rw [hgate] at hc
      simp only [Bool.false_eq_true, if_false] at hc
      cases htm : (CourseSerializer.validated_update_data ru).team_members with
      | none =>
        rw [htm] at hc
        have hcc := (Except.ok.injEq _ _).mp hc
        rw [← hcc]
        rfl
      | some mds =>
        rw [htm] at hc
        have hsp := attachRoster_spec
          (Course.save st (applyUpdate instance_ (CourseSerializer.validated_update_data ru))
            emailOk).2
          (applyUpdate instance_ (CourseSerializer.validated_update_data ru)) mds
        rcases hsp.2 with hok | ⟨e, herr⟩
        · rw [hok] at hc
          have hcc := (Except.ok.injEq _ _).mp hc
          rw [← hcc]
          rfl
        · rw [herr] at hc
          simp at hc
  · unfold CourseSerializer.update
    by_cases hgate : (!(instance_.created_by.id == actor.id) &&
        !(actor.is_admin || actor.is_responsable)) = true
    · rw [hgate]
      show courseStatus st instance_.id = some instance_.status
      unfold courseStatus
      rw [hfind]
      rfl
    · rw [Bool.not_eq_true] at hgate
      rw [hgate]
      cases htm : (CourseSerializer.validated_update_data ru).team_members with
      | none =>
        show courseStatus
          (Course.save st (applyUpdate instance_ (CourseSerializer.validated_update_data ru))
            emailOk).2 instance_.id = some instance_.status
        unfold courseStatus findCourse
        rw [hsvc _]
        rfl
      | some mds =>
        show courseStatus
          (attachRoster
            (Course.save st
              (applyUpdate instance_ (CourseSerializer.validated_update_data ru)) emailOk).2
            (applyUpdate instance_ (CourseSerializer.validated_update_data ru)) mds).1
          instance_.id = some instance_.status
        unfold courseStatus findCourse
        have hsp := attachRoster_spec
          (Course.save st (applyUpdate instance_ (CourseSerializer.validated_update_data ru))
            emailOk).2
          (applyUpdate instance_ (CourseSerializer.validated_update_data ru)) mds
        rw [hsp.1, (handle_team_members_frame _ _ _).1, hsvc _]
        rfl

/-- Witness for C5: updating the demo draft course with a request that
asked for PUBLISHED leaves the persisted status DRAFT, and a create
request asking for PUBLISHED yields a DRAFT course. -/
theorem created_draft_status_readonly_witness :
    courseStatus (CourseSerializer.update demoStore uFormateur draftCourse
      (CourseSerializer.validated_update_data demoRawUpdate) true).1 10 =
      some Status.DRAFT ∧
    (∀ c, (CourseSerializer.create demoStore uFormateur
        (CourseSerializer.validated_create_data demoRawCreate) 20).2 = Except.ok c →
      c.status = Status.DRAFT) := by
  have h := created_draft_status_readonly demoStore uFormateur demoRawCreate 20
    draftCourse demoRawUpdate true (by decide)
  exact ⟨h.2.2, fun c hc => (h.1 c hc).1⟩

/-- C2 (code bug): the submit endpoint never consults the submission
deadline — a DRAFT course whose deadline is strictly in the past is
still submitted with 200 and its status committed as SUBMITTED — even
though the model's own `Course.clean` (never invoked on this path, since
Django's `save` does not run `clean`) would reject exactly this course
with "Cannot submit after deadline". -/
theorem submit_ignores_deadline (st : Store) (actor : User) (pk : Nat)
    (course : Course) (now d : Int)
    (hfind : findCourse st pk = some course)
    (hdraft : course.status = Status.DRAFT)
    (hcreator : course.created_by.id = actor.id)
    (hdl : course.submission_deadline = some d)
    (hlate : d < now) :
    (CourseViewSet.submit st actor pk true).1 = 200 ∧
    courseStatus (CourseViewSet.submit st actor pk true).2 pk = some Status.SUBMITTED ∧
    Course.clean { course with status := Status.SUBMITTED } now =
      Except.error "Cannot submit after deadline" := by
  have h := submit_draft_permitted st actor pk true course hfind hdraft (Or.inl hcreator)
  refine ⟨by simpa using h.1, h.2.1, ?_⟩
  exact clean_late _ now d rfl hdl hlate

/-- Witness for C2: the demo draft course has deadline 100; at time 200
its creator submits it and gets 200 with status SUBMITTED, though
`Course.clean` would have rejected it. -/
theorem submit_ignores_deadline_witness :
    (CourseViewSet.submit demoStore uFormateur 10 true).1 = 200 ∧
    courseStatus (CourseViewSet.submit demoStore uFormateur 10 true).2 10 =
      some Status.SUBMITTED ∧
    Course.clean { draftCourse with status := Status.SUBMITTED } 200 =
      Except.error "Cannot submit after deadline" :=
  submit_ignores_deadline demoStore uFormateur 10 draftCourse 200 100
    (by decide) (by decide) (by decide) (by decide) (by decide)

/-- C3 (code bug): the submit endpoint never checks field completeness —
a DRAFT course failing the model's own `check_completeness` (blank or
missing required fields) is still submitted with 200 and committed as
SUBMITTED, although `check_completeness` exists precisely to gate
submission and is called by nothing. -/
theorem submit_ignores_completeness (st : Store) (actor : User) (pk : Nat)
    (course : Course)
    (hfind : findCourse st pk = some course)
    (hdraft : course.status = Status.DRAFT)
    (hcreator : course.created_by.id = actor.id)
    (hincomplete : course.check_completeness = false) :
    Course.check_completeness { course with status := Status.SUBMITTED } = false ∧
    (CourseViewSet.submit st actor pk true).1 = 200 ∧
    courseStatus (CourseViewSet.submit st actor pk true).2 pk =
      some Status.SUBMITTED := by
  have h := submit_draft_permitted st actor pk true course hfind hdraft (Or.inl hcreator)
  exact ⟨hincomplete, by simpa using h.1, h.2.1⟩

/-- Witness for C3: the demo course with a whitespace-only description is
incomplete, yet its creator submits it and gets 200 / SUBMITTED. -/
theorem submit_ignores_completeness_witness :
    Course.check_completeness { blankCourse with status := Status.SUBMITTED } = false ∧
    (CourseViewSet.submit demoStore uFormateur 12 true).1 = 200 ∧
    courseStatus (CourseViewSet.submit demoStore uFormateur 12 true).2 12 =
      some Status.SUBMITTED :=
  submit_ignores_completeness demoStore uFormateur 12 blankCourse
    (by decide) (by decide) (by decide) (by decide)

/-- C7 counterexample: the trainer submits their complete draft course
(deadline 100, before it) in a store that holds a RESPONSABLE and an
ADMIN; the submit succeeds, but the notification table stays empty — no
persisted record is created for the creator or for any evaluator. -/
theorem submit_creates_no_notification_rows :
    (CourseViewSet.submit demoStore uFormateur 10 true).1 = 200 ∧
    courseStatus (CourseViewSet.submit demoStore uFormateur 10 true).2 10 =
      some Status.SUBMITTED ∧
    (CourseViewSet.submit demoStore uFormateur 10 true).2.notifications = [] := by
  refine ⟨by decide, by decide, by decide⟩

/-- C7 (amended): a permitted submit of a complete draft course before
its deadline succeeds with 200 and persists status SUBMITTED; instead of
persisting notification records it sends a confirmation email to the
creator and one alert email per RESPONSABLE/ADMIN user, and the
notification table is untouched. -/
theorem submit_success_sends_emails (st : Store) (actor : User) (pk : Nat)
    (course : Course) (now : Int)
    (hfind : findCourse st pk = some course)
    (hdraft : course.status = Status.DRAFT)
    (hcreator : course.created_by.id = actor.id)
    (hcomplete : course.check_completeness = true)
    (hdl : ∀ d, course.submission_deadline = some d → now ≤ d) :
    (CourseViewSet.submit st actor pk true).1 = 200 ∧
    courseStatus (CourseViewSet.submit st actor pk true).2 pk = some Status.SUBMITTED ∧
    (CourseViewSet.submit st actor pk true).2.notifications = st.notifications ∧
    (CourseViewSet.submit st actor pk true).2.emails =
      st.emails ++ submissionConfirmEmail course ::
        (st.users.filter isEvaluator).map (evaluatorAlertEmail course) := by
  have h := submit_draft_permitted st actor pk true course hfind hdraft (Or.inl hcreator)
  exact ⟨by simpa using h.1, h.2.1, h.2.2.1, by simpa using h.2.2.2⟩

/-- Witness for C7 (amended): the trainer submits the demo draft at time
50 (deadline 100): 200, SUBMITTED, no notification rows, and exactly the
confirmation mail plus one alert each to the RESPONSABLE and the
ADMIN. -/
theorem submit_success_sends_emails_witness :
    (CourseViewSet.submit demoStore uFormateur 10 true).1 = 200 ∧
    courseStatus (CourseViewSet.submit demoStore uFormateur 10 true).2 10 =
      some Status.SUBMITTED ∧
    (CourseViewSet.submit demoStore uFormateur 10 true).2.notifications =
      demoStore.notifications ∧
    (CourseViewSet.submit demoStore uFormateur 10 true).2.emails =
      demoStore.emails ++ submissionConfirmEmail draftCourse ::
        (demoStore.users.filter isEvaluator).map (evaluatorAlertEmail draftCourse) :=
  submit_success_sends_emails demoStore uFormateur 10 draftCourse 50
    (by decide) (by decide) (by decide) (by decide)
    (fun d hd => by
      have hd2 : (some (100 : Int) : Option Int) = some d := hd
      injection hd2 with h
      rw [← h]
      decide)

/-- C9 counterexample: with email delivery down, the creator submits the
demo draft course: the status transition is committed (SUBMITTED is
persisted) yet the endpoint answers 500, not success. -/
theorem submit_email_failure_reports_500 :
    (CourseViewSet.submit demoStore uFormateur 10 false).1 = 500 ∧
    courseStatus (CourseViewSet.submit demoStore uFormateur 10 false).2 10 =
      some Status.SUBMITTED := by
  refine ⟨by decide, by decide⟩

/-- C9 (amended): an email-dispatch failure never rolls back the
committed transition, but only publish still reports success: the
publish fan-out swallows the failure (200, PUBLISHED persisted), while
submit lets the exception escape `Course.save` and answers 500 even
though SUBMITTED was already persisted (and no email was sent). -/
theorem email_failure_keeps_transition (st : Store) (actor admin_ : User)
    (pk pk2 : Nat) (course approved : Course)
    (hfind : findCourse st pk = some course)
    (hdraft : course.status = Status.DRAFT)
    (hcreator : course.created_by.id = actor.id)
    (hfind2 : findCourse st pk2 = some approved)
    (happr : approved.status = Status.APPROVED)
    (hrole : admin_.role = Role.ADMIN) :
    ((CourseViewSet.publish st admin_ pk2 false).1 = 200 ∧
      courseStatus (CourseViewSet.publish st admin_ pk2 false).2 pk2 =
        some Status.PUBLISHED) ∧
    ((CourseViewSet.submit st actor pk false).1 = 500 ∧
      courseStatus (CourseViewSet.submit st actor pk false).2 pk =
        some Status.SUBMITTED ∧
      (CourseViewSet.submit st actor pk false).2.emails = st.emails) := by
  have hpub := publish_approved_role st admin_ pk2 false approved hfind2 happr
    (Or.inl hrole)
  have hsub := submit_draft_permitted st actor pk false course hfind hdraft
    (Or.inl hcreator)
  exact ⟨hpub, by simpa using hsub.1, hsub.2.1, by simpa using hsub.2.2.2⟩

/-- Witness for C9 (amended): with email down, the ADMIN publishes the
approved demo course (200, PUBLISHED) and the trainer submits the demo
draft (500, yet SUBMITTED persisted, no email logged). -/
theorem email_failure_keeps_transition_witness :
    ((CourseViewSet.publish demoStore uAdmin 11 false).1 = 200 ∧
      courseStatus (CourseViewSet.publish demoStore uAdmin 11 false).2 11 =
        some Status.PUBLISHED) ∧
    ((CourseViewSet.submit demoStore uFormateur 10 false).1 = 500 ∧
      courseStatus (CourseViewSet.submit demoStore uFormateur 10 false).2 10 =
        some Status.SUBMITTED ∧
      (CourseViewSet.submit demoStore uFormateur 10 false).2.emails =
        demoStore.emails) :=
  email_failure_keeps_transition demoStore uFormateur uAdmin 10 11 draftCourse
    approvedCourse (by decide) (by decide) (by decide) (by decide) (by decide) (by decide)

/-- Under the id-key invariant, the overwrite of a found member rewrites
each stored row to one with the same id and email. -/
theorem overwriteMember_pointwise (st : Store) (m0 : TeamMember) (md : TeamMemberData)
    (hI : ∀ m1 ∈ st.teamMembers, ∀ m2 ∈ st.teamMembers, m1.id = m2.id → m1 = m2)
    (hm0 : m0 ∈ st.teamMembers) :
    ∀ x ∈ st.teamMembers,
      ((if x.id == (overwrittenRecord m0 md).id then overwrittenRecord m0 md else x).id
          = x.id ∧
        (if x.id == (overwrittenRecord m0 md).id then overwrittenRecord m0 md
          else x).email = x.email) := by
  intro x hx
  by_cases h : (x.id == (overwrittenRecord m0 md).id) = true
  · have hxm0 : x = m0 := hI x hx m0 hm0 (by simpa [overwrittenRecord] using h)
    rw [if_pos h, hxm0]
    exact ⟨rfl, rfl⟩
  · rw [if_neg h]
    exact ⟨rfl, rfl⟩

theorem overwriteMember_teamMembers (st : Store) (m0 : TeamMember) (md : TeamMemberData) :
    (overwriteMember st m0 md).teamMembers =
      st.teamMembers.map (fun y =>
        if y.id == (overwrittenRecord m0 md).id then overwrittenRecord m0 md else y) :=
  rfl

/-- Every member of the overwritten table is the rewrite of a stored
member with the same id and email. -/
theorem overwriteMember_members (st : Store) (m0 : TeamMember) (md : TeamMemberData)
    (hI : ∀ m1 ∈ st.teamMembers, ∀ m2 ∈ st.teamMembers, m1.id = m2.id → m1 = m2)
    (hm0 : m0 ∈ st.teamMembers) :
    ∀ x ∈ (overwriteMember st m0 md).teamMembers,
      ∃ y ∈ st.teamMembers, x.id = y.id ∧ x.email = y.email := by
  intro x hx
  rw [overwriteMember_teamMembers] at hx
  obtain ⟨y, hy, hxy⟩ := List.mem_map.mp hx
  obtain ⟨h1, h2⟩ := overwriteMember_pointwise st m0 md hI hm0 y hy
  exact ⟨y, hy, by rw [← hxy]; exact ⟨h1, h2⟩⟩

/-- The overwritten row itself is in the table. -/
theorem overwriteMember_hit (st : Store) (m0 : TeamMember) (md : TeamMemberData)
    (hm0 : m0 ∈ st.teamMembers) :
    overwrittenRecord m0 md ∈ (overwriteMember st m0 md).teamMembers := by
  rw [overwriteMember_teamMembers]
  refine List.mem_map.mpr ⟨m0, hm0, ?_⟩
  rw [if_pos (by simp [overwrittenRecord])]

/-- A stored member with a different id survives the overwrite
unchanged. -/
theorem overwriteMember_miss (st : Store) (m0 : TeamMember) (md : TeamMemberData)
    (x : TeamMember) (hx : x ∈ st.teamMembers) (hne : x.id ≠ m0.id) :
    x ∈ (overwriteMember st m0 md).teamMembers := by
  rw [overwriteMember_teamMembers]
  refine List.mem_map.mpr ⟨x, hx, ?_⟩
  rw [if_neg (by simpa [overwrittenRecord] using hne)]

/-- The image of a stored member under the overwrite map is in the
overwritten table. -/
theorem mem_overwrite_image (st : Store) (m0 : TeamMember) (md : TeamMemberData)
    (m : TeamMember) (hm : m ∈ st.teamMembers) :
    (if m.id == (overwrittenRecord m0 md).id then overwrittenRecord m0 md else m) ∈
      (overwriteMember st m0 md).teamMembers := by
  rw [overwriteMember_teamMembers]
  exact List.mem_map.mpr ⟨m, hm, rfl⟩

/-- One roster-loop step on descriptor `md`.  If a member with
`md.email` is already paired to the course the step raises the
ValidationError; otherwise it succeeds and the loop continues on a
well-formed store that holds a member with the descriptor's data paired
to the course, with exactly one pairing row appended. -/
theorem roster_step (st : Store) (cid : Nat) (md : TeamMemberData)
    (rest : List TeamMemberData) (hwf : st.teamWF) :
    (EmailPaired st cid md.email →
      (handleTeamMembersLoop cid st (md :: rest)).2 ≠ none) ∧
    (¬EmailPaired st cid md.email →
      ∃ st3 m, handleTeamMembersLoop cid st (md :: rest) =
          handleTeamMembersLoop cid st3 rest ∧
        st3.teamWF ∧
        m ∈ st3.teamMembers ∧ m.email = md.email ∧ m.full_name = md.full_name ∧
        m.qualification = md.qualification ∧
        st3.courseTeams = st.courseTeams ++ [{ course := cid, team_member := m.id }] ∧
        (∀ e, EmailPaired st cid e → EmailPaired st3 cid e) ∧
        (∀ e, EmailPaired st3 cid e → e = md.email ∨ EmailPaired st cid e) ∧
        (∀ x ∈ st.teamMembers, x.email ≠ md.email → x ∈ st3.teamMembers)) := by
  obtain ⟨hE, hI, hB, hFK⟩ := hwf
  cases hf : st.teamMembers.find? (fun m => m.email == md.email) with
  | none =>
    have hnomem : ∀ x ∈ st.teamMembers, x.email ≠ md.email := by
      intro x hx hxe
      have hnone := List.find?_eq_none.mp hf x hx
      exact absurd (by simp [hxe]) hnone
    constructor
    · intro hp
      obtain ⟨ct, hct, hctc, m, hm, hmid, hme⟩ := hp
      exact absurd hme (hnomem m hm)
    · intro hnp
      have hany : ¬((addFreshMember st md).courseTeams.any (fun ct =>
          ct.course == cid && ct.team_member == (freshMember st md).id) = true) := by
        intro hq
        obtain ⟨ct, hct, hctp⟩ := List.any_eq_true.mp hq
        rw [Bool.and_eq_true] at hctp
        have hct2 : ct ∈ st.courseTeams := hct
        obtain ⟨m, hm, hmid⟩ := hFK ct hct2
        have h1 : ct.team_member = st.nextTeamMemberId := by
          simpa [freshMember] using hctp.2
        have h2 := hB m hm
        omega
      refine ⟨addPairing (addFreshMember st md) cid (freshMember st md).id,
        freshMember st md, ?_, ?_, ?_, rfl, rfl, rfl, rfl, ?_, ?_, ?_⟩
      · simp only [handleTeamMembersLoop, hf, createCourseTeam]
        rw [if_neg hany]
      · refine ⟨?_, ?_, ?_, ?_⟩
        · intro m1 hm1 m2 hm2 he
          have hm1b : m1 ∈ st.teamMembers ∨ m1 = freshMember st md := by
            simpa using List.mem_append.mp hm1
          have hm2b : m2 ∈ st.teamMembers ∨ m2 = freshMember st md := by
            simpa using List.mem_append.mp hm2
          rcases hm1b with h1 | h1 <;> rcases hm2b with h2 | h2
          · exact hE m1 h1 m2 h2 he
          · exact absurd (he.trans (by rw [h2]; rfl)) (hnomem m1 h1)
          · exact absurd (he.symm.trans (by rw [h1]; rfl)) (hnomem m2 h2)
          · rw [h1, h2]
        · intro m1 hm1 m2 hm2 he
          have hm1b : m1 ∈ st.teamMembers ∨ m1 = freshMember st md := by
            simpa using List.mem_append.mp hm1
          have hm2b : m2 ∈ st.teamMembers ∨ m2 = freshMember st md := by
            simpa using List.mem_append.mp hm2
          rcases hm1b with h1 | h1 <;> rcases hm2b with h2 | h2
          · exact hI m1 h1 m2 h2 he
          · have := hB m1 h1
            rw [h2] at he
            simp [freshMember] at he
            omega
          · have := hB m2 h2
            rw [h1] at he
            simp [freshMember] at he
            omega
          · rw [h1, h2]
        · intro m hm
          have hmb : m ∈ st.teamMembers ∨ m = freshMember st md := by
            simpa using List.mem_append.mp hm
          rcases hmb with h | h
          · have := hB m h
            show m.id < st.nextTeamMemberId + 1
            omega
          · rw [h]
            show st.nextTeamMemberId < st.nextTeamMemberId + 1
            omega
        · intro ct hct
          have hctb : ct ∈ st.courseTeams ∨
              ct = ({ course := cid, team_member := (freshMember st md).id } :
                CourseTeam) := by
            simpa using List.mem_append.mp hct
          rcases hctb with h | h
          · obtain ⟨m, hm, hmid⟩ := hFK ct h
            exact ⟨m, List.mem_append_left _ hm, hmid⟩
          · refine ⟨freshMember st md, List.mem_append_right _ (by simp), ?_⟩
            rw [h]
      · exact List.mem_append_right _ (by simp)
      · intro e hp
        obtain ⟨ct, hct, hctc, m, hm, hmid, hme⟩ := hp
        exact ⟨ct, List.mem_append_left _ hct, hctc,
          m, List.mem_append_left _ hm, hmid, hme⟩
      · intro e hp
        obtain ⟨ct, hct, hctc, m, hm, hmid, hme⟩ := hp
        have hctb : ct ∈ st.courseTeams ∨
            ct = ({ course := cid, team_member := (freshMember st md).id } :
              CourseTeam) := by
          simpa using List.mem_append.mp hct
        have hmb : m ∈ st.teamMembers ∨ m = freshMember st md := by
          simpa using List.mem_append.mp hm
        rcases hctb with hcto | hctn
        · rcases hmb with hmo | hmn
          · exact Or.inr ⟨ct, hcto, hctc, m, hmo, hmid, hme⟩
          · obtain ⟨m2, hm2, hm2id⟩ := hFK ct hcto
            have hb2 := hB m2 hm2
            rw [hmn] at hmid
            simp only [freshMember] at hmid
            omega
        · rcases hmb with hmo | hmn
          · have hb2 := hB m hmo
            rw [hctn] at hmid
            simp only [freshMember] at hmid
            omega
          · left
            rw [← hme, hmn]
            rfl
      · intro x hx _
        exact List.mem_append_left _ hx
  | some m0 =>
    have hm0mem : m0 ∈ st.teamMembers := List.mem_of_find?_eq_some hf
    have hm0email : m0.email = md.email := by simpa using List.find?_some hf
    constructor
    · intro hp
      obtain ⟨ct, hct, hctc, m, hm, hmid, hme⟩ := hp
      have hmm0 : m = m0 := hE m hm m0 hm0mem (hme.trans hm0email.symm)
      have hany : ((overwriteMember st m0 md).courseTeams.any (fun ct2 =>
          ct2.course == cid && ct2.team_member == m0.id) = true) := by
        refine List.any_eq_true.mpr ⟨ct, hct, ?_⟩
        rw [Bool.and_eq_true]
        refine ⟨by simpa using hctc, ?_⟩
        have h1 : ct.team_member = m0.id := by rw [← hmid, hmm0]
        simpa using h1
      simp only [handleTeamMembersLoop, hf, createCourseTeam]
      rw [if_pos hany]
      simp
    · intro hnp
      have hany : ¬((overwriteMember st m0 md).courseTeams.any (fun ct2 =>
          ct2.course == cid && ct2.team_member == m0.id) = true) := by
        intro hq
        obtain ⟨ct, hct, hctp⟩ := List.any_eq_true.mp hq
        rw [Bool.and_eq_true] at hctp
        have hct2 : ct ∈ st.courseTeams := hct
        refine hnp ⟨ct, hct2, by simpa using hctp.1, m0, hm0mem, ?_, hm0email⟩
        have h1 : ct.team_member = m0.id := by simpa using hctp.2
        omega
      refine ⟨addPairing (overwriteMember st m0 md) cid m0.id,
        overwrittenRecord m0 md, ?_, ?_, overwriteMember_hit st m0 md hm0mem,
        hm0email, rfl, rfl, rfl, ?_, ?_, ?_⟩
      · simp only [handleTeamMembersLoop, hf, createCourseTeam]
        rw [if_neg hany]
      · refine ⟨?_, ?_, ?_, ?_⟩
        · intro m1 hm1 m2 hm2 he
          obtain ⟨y1, hy1, hxy1⟩ := List.mem_map.mp hm1
          obtain ⟨y2, hy2, hxy2⟩ := List.mem_map.mp hm2
          obtain ⟨hid1, hem1⟩ := overwriteMember_pointwise st m0 md hI hm0mem y1 hy1
          obtain ⟨hid2, hem2⟩ := overwriteMember_pointwise st m0 md hI hm0mem y2 hy2
          rw [← hxy1, ← hxy2] at he ⊢
          rw [hem1, hem2] at he
          rw [hE y1 hy1 y2 hy2 he]
        · intro m1 hm1 m2 hm2 he
          obtain ⟨y1, hy1, hxy1⟩ := List.mem_map.mp hm1
          obtain ⟨y2, hy2, hxy2⟩ := List.mem_map.mp hm2
          obtain ⟨hid1, hem1⟩ := overwriteMember_pointwise st m0 md hI hm0mem y1 hy1
          obtain ⟨hid2, hem2⟩ := overwriteMember_pointwise st m0 md hI hm0mem y2 hy2
          rw [← hxy1, ← hxy2] at he ⊢
          rw [hid1, hid2] at he
          rw [hI y1 hy1 y2 hy2 he]
        · intro m hm
          obtain ⟨y, hy, hxy⟩ := List.mem_map.mp hm
          obtain ⟨hid, _⟩ := overwriteMember_pointwise st m0 md hI hm0mem y hy
          rw [← hxy]
          show _ < st.nextTeamMemberId
          rw [hid]
          exact hB y hy
        · intro ct hct
          have hctb : ct ∈ st.courseTeams ∨
              ct = ({ course := cid, team_member := m0.id } : CourseTeam) := by
            simpa using List.mem_append.mp hct
          rcases hctb with h | h
          · obtain ⟨m, hm, hmid⟩ := hFK ct h
            refine ⟨(if m.id == (overwrittenRecord m0 md).id then overwrittenRecord m0 md
              else m), mem_overwrite_image st m0 md m hm, ?_⟩
            obtain ⟨hid, _⟩ := overwriteMember_pointwise st m0 md hI hm0mem m hm
            rw [hid]
            exact hmid
          · refine ⟨overwrittenRecord m0 md, overwriteMember_hit st m0 md hm0mem, ?_⟩
            rw [h]
            rfl
      · intro e hp
        obtain ⟨ct, hct, hctc, m, hm, hmid, hme⟩ := hp
        refine ⟨ct, List.mem_append_left _ hct, hctc,
          (if m.id == (overwrittenRecord m0 md).id then overwrittenRecord m0 md
            else m), mem_overwrite_image st m0 md m hm, ?_, ?_⟩
        · obtain ⟨hid, _⟩ := overwriteMember_pointwise st m0 md hI hm0mem m hm
          rw [hid]
          exact hmid
        · obtain ⟨_, hem⟩ := overwriteMember_pointwise st m0 md hI hm0mem m hm
          rw [hem]
          exact hme
      · intro e hp
        obtain ⟨ct, hct, hctc, x, hx, hxid, hxe⟩ := hp
        obtain ⟨y, hy, hyid, hyem⟩ := overwriteMember_members st m0 md hI hm0mem x hx
        have hctb : ct ∈ st.courseTeams ∨
            ct = ({ course := cid, team_member := m0.id } : CourseTeam) := by
          simpa using List.mem_append.mp hct
        rcases hctb with h | h
        · exact Or.inr ⟨ct, h, hctc, y, hy, by rw [← hyid]; exact hxid,
            by rw [← hyem]; exact hxe⟩
        · left
          have h1 : ct.team_member = m0.id := by rw [h]
          have h2 : y.id = m0.id := by rw [← hyid, hxid, h1]
          have h3 : y = m0 := hI y hy m0 hm0mem h2
          rw [← hxe, hyem, h3, hm0email]
      · intro x hx hxe
        have hxne : x.id ≠ m0.id := by
          intro hid
          exact hxe ((hI x hx m0 hm0mem hid) ▸ hm0email)
        exact overwriteMember_miss st m0 md x hx hxne

/-- If some roster email is already paired to the course, the loop
raises before finishing. -/
theorem loop_paired_fails (cid : Nat) (mds : List TeamMemberData) (e : String) :
    ∀ st : Store, st.teamWF → EmailPaired st cid e →
      e ∈ mds.map TeamMemberData.email →
      (handleTeamMembersLoop cid st mds).2 ≠ none := by
  induction mds with
  | nil =>
    intro st _ _ hin
    simp at hin
  | cons md rest ih =>
    intro st hwf hp hin
    by_cases hme : md.email = e
    · exact (roster_step st cid md rest hwf).1 (hme ▸ hp)
    · by_cases hpm : EmailPaired st cid md.email
      · exact (roster_step st cid md rest hwf).1 hpm
      · obtain ⟨st3, m, heq, hwf3, hmem, hemail, hname, hqual, hcts, hmono, hrefl, hpres⟩ :=
          (roster_step st cid md rest hwf).2 hpm
        rw [heq]
        have hin2 : e ∈ rest.map TeamMemberData.email := by
          rw [List.map_cons] at hin
          rcases List.mem_cons.mp hin with h | h
          · exact absurd h.symm hme
          · exact h
        exact ih st3 hwf3 (hmono e hp) hin2

/-- A roster in which some email occurs twice makes the loop raise. -/
theorem loop_dup_fails (cid : Nat) (mds : List TeamMemberData) :
    ∀ st : Store, st.teamWF → ¬(mds.map TeamMemberData.email).Nodup →
      (handleTeamMembersLoop cid st mds).2 ≠ none := by
  induction mds with
  | nil =>
    intro st _ hdup
    exact absurd List.nodup_nil hdup
  | cons md rest ih =>
    intro st hwf hdup
    by_cases hpm : EmailPaired st cid md.email
    · exact (roster_step st cid md rest hwf).1 hpm
    · obtain ⟨st3, m, heq, hwf3, hmem, hemail, hname, hqual, hcts, hmono, hrefl, hpres⟩ :=
        (roster_step st cid md rest hwf).2 hpm
      rw [heq]
      by_cases hnd2 : (rest.map TeamMemberData.email).Nodup
      · have hin : md.email ∈ rest.map TeamMemberData.email := by
          by_contra hnin
          refine hdup ?_
          rw [List.map_cons]
          exact List.nodup_cons.mpr ⟨hnin, hnd2⟩
        have hp3 : EmailPaired st3 cid md.email := by
          refine ⟨{ course := cid, team_member := m.id }, ?_, rfl, m, hmem, rfl, hemail⟩
          rw [hcts]
          exact List.mem_append_right _ (by simp)
        exact loop_paired_fails cid rest md.email st3 hwf3 hp3 hin
      · exact ih st3 hwf3 hnd2

/-- A roster with pairwise-distinct emails runs to completion: no error,
one new pairing per descriptor, each descriptor's data on a member
paired to the course; members with other emails and existing pairings
survive. -/
theorem loop_nodup_spec (cid : Nat) (mds : List TeamMemberData) :
    ∀ st : Store, st.teamWF →
      (mds.map TeamMemberData.email).Nodup →
      (∀ md ∈ mds, ¬EmailPaired st cid md.email) →
      (handleTeamMembersLoop cid st mds).2 = none ∧
      ((handleTeamMembersLoop cid st mds).1.courseTeams.filter
        (fun ct => ct.course == cid)).length =
        (st.courseTeams.filter (fun ct => ct.course == cid)).length + mds.length ∧
      (∀ md ∈ mds, ∃ m ∈ (handleTeamMembersLoop cid st mds).1.teamMembers,
        m.email = md.email ∧ m.full_name = md.full_name ∧
        m.qualification = md.qualification ∧
        ({ course := cid, team_member := m.id } : CourseTeam) ∈
          (handleTeamMembersLoop cid st mds).1.courseTeams) ∧
      (∀ x ∈ st.teamMembers, x.email ∉ mds.map TeamMemberData.email →
        x ∈ (handleTeamMembersLoop cid st mds).1.teamMembers) ∧
      (∀ ct ∈ st.courseTeams,
        ct ∈ (handleTeamMembersLoop cid st mds).1.courseTeams) := by
  induction mds with
  | nil =>
    intro st _ _ _
    refine ⟨rfl, by simp [handleTeamMembersLoop], ?_, ?_, ?_⟩
    · intro md hmd
      simp at hmd
    · intro x hx _
      exact hx
    · intro ct hct
      exact hct
  | cons md rest ih =>
    intro st hwf hnd hfree
    have hpm : ¬EmailPaired st cid md.email := hfree md (by simp)
    obtain ⟨st3, m, heq, hwf3, hmem, hemail, hname, hqual, hcts, hmono, hrefl, hpres⟩ :=
      (roster_step st cid md rest hwf).2 hpm
    rw [List.map_cons] at hnd
    have hndc := List.nodup_cons.mp hnd
    have hfree3 : ∀ md2 ∈ rest, ¬EmailPaired st3 cid md2.email := by
      intro md2 hmd2 hp3
      rcases hrefl md2.email hp3 with h | h
      · have hmm : md2.email ∈ rest.map TeamMemberData.email :=
          List.mem_map_of_mem TeamMemberData.email hmd2
        rw [h] at hmm
        exact hndc.1 hmm
      · exact hfree md2 (List.mem_cons_of_mem _ hmd2) h
    obtain ⟨h1, h2, h3, h4, h5⟩ := ih st3 hwf3 hndc.2 hfree3
    rw [heq]
    refine ⟨h1, ?_, ?_, ?_, ?_⟩
    · rw [h2, hcts, List.filter_append]
      simp
      omega
    · intro md2 hmd2
      rcases List.mem_cons.mp hmd2 with h | h
      · refine ⟨m, ?_, ?_, ?_, ?_, ?_⟩
        · refine h4 m hmem ?_
          rw [hemail]
          exact hndc.1
        · rw [hemail, h]
        · rw [hname, h]
        · rw [hqual, h]
        · refine h5 _ ?_
          rw [hcts]
          exact List.mem_append_right _ (by simp)
      · exact h3 md2 h
    · intro x hx hxe
      have hxe1 : x.email ≠ md.email := fun hc => hxe (by simp [hc])
      have hxe2 : x.email ∉ rest.map TeamMemberData.email := fun hc => hxe (by simp [hc])
      exact h4 x (hpres x hx hxe1) hxe2
    · intro ct hct
      refine h5 ct ?_
      rw [hcts]
      exact List.mem_append_left _ hct

theorem clearCourseTeams_teamWF (st : Store) (cid : Nat) (hwf : st.teamWF) :
    (clearCourseTeams st cid).teamWF := by
  obtain ⟨hE, hI, hB, hFK⟩ := hwf
  exact ⟨hE, hI, hB, fun ct hct => hFK ct (List.mem_of_mem_filter hct)⟩

theorem clearCourseTeams_unpaired (st : Store) (cid : Nat) (e : String) :
    ¬EmailPaired (clearCourseTeams st cid) cid e := by
  rintro ⟨ct, hct, hctc, -⟩
  have h := List.of_mem_filter hct
  simp at h
  exact h hctc

theorem clearCourseTeams_filter_len (st : Store) (cid : Nat) :
    ((clearCourseTeams st cid).courseTeams.filter
      (fun ct => ct.course == cid)).length = 0 := by
  simp only [clearCourseTeams, List.filter_filter]
  have : ∀ ct : CourseTeam, ((ct.course == cid) && !(ct.course == cid)) = false := by
    intro ct
    cases h : (ct.course == cid) <;> simp [h]
  simp [this]

/-- C8 counterexample: reconciling the roster [Alice, Alice-again, Bob]
aborts with the ValidationError the duplicate pairing raises.  Alice was
found-or-created and overwritten to the second occurrence's data with
exactly one pairing, but Bob — after the duplicate — is never processed,
so the claimed per-descriptor run does not happen. -/
theorem roster_duplicate_email_fails :
    (CourseSerializer.handle_team_members demoStore draftCourse
      [mdA1, mdA2, mdB]).2 =
      some (ApiError.validation
        "Error processing team member: UNIQUE constraint failed") ∧
    (CourseSerializer.handle_team_members demoStore draftCourse
      [mdA1, mdA2, mdB]).1.teamMembers =
      [{ id := 1, full_name := "Alice B. Smith", qualification := "DALF C1",
         email := "alice@x.example" }] ∧
    (CourseSerializer.handle_team_members demoStore draftCourse
      [mdA1, mdA2, mdB]).1.courseTeams = [{ course := 10, team_member := 1 }] := by
  refine ⟨by decide, by decide, by decide⟩

/-- C8 (amended): on a database satisfying the team-table invariants,
reconciling a roster whose emails contain a duplicate raises a
ValidationError (the recreated (course, team_member) pairing violates the
unique constraint); for a roster with pairwise-distinct emails the
claimed full-replace semantics holds: the call succeeds, the course ends
with exactly one pairing per descriptor, and each descriptor's email
names a member carrying that descriptor's name and qualification, paired
to the course. -/
theorem roster_reconciliation (st : Store) (course : Course)
    (mds : List TeamMemberData) (hwf : st.teamWF) :
    (¬(mds.map TeamMemberData.email).Nodup →
      (CourseSerializer.handle_team_members st course mds).2 ≠ none) ∧
    ((mds.map TeamMemberData.email).Nodup →
      (CourseSerializer.handle_team_members st course mds).2 = none ∧
      ((CourseSerializer.handle_team_members st course mds).1.courseTeams.filter
        (fun ct => ct.course == course.id)).length = mds.length ∧
      (∀ md ∈ mds,
        ∃ m ∈ (CourseSerializer.handle_team_members st course mds).1.teamMembers,
          m.email = md.email ∧ m.full_name = md.full_name ∧
          m.qualification = md.qualification ∧
          ({ course := course.id, team_member := m.id } : CourseTeam) ∈
            (CourseSerializer.handle_team_members st course mds).1.courseTeams)) := by
  unfold CourseSerializer.handle_team_members
  constructor
  · intro hdup
    exact loop_dup_fails course.id mds (clearCourseTeams st course.id)
      (clearCourseTeams_teamWF st course.id hwf) hdup
  · intro hnd
    obtain ⟨h1, h2, h3, -, -⟩ := loop_nodup_spec course.id mds
      (clearCourseTeams st course.id) (clearCourseTeams_teamWF st course.id hwf) hnd
      (fun md _ => clearCourseTeams_unpaired st course.id md.email)
    rw [clearCourseTeams_filter_len] at h2
    exact ⟨h1, by simpa using h2, h3⟩

/-- Witness for C8 (amended): on the demo store, the distinct roster
[Alice, Bob] reconciles cleanly with exactly two pairings, while the
duplicated roster [Alice, Alice-again, Bob] raises. -/
theorem roster_reconciliation_witness :
    (CourseSerializer.handle_team_members demoStore draftCourse [mdA1, mdB]).2 =
      none ∧
    ((CourseSerializer.handle_team_members demoStore draftCourse
      [mdA1, mdB]).1.courseTeams.filter (fun ct => ct.course == 10)).length = 2 ∧
    (CourseSerializer.handle_team_members demoStore draftCourse
      [mdA1, mdA2, mdB]).2 ≠ none := by
  have hwf : demoStore.teamWF := by
    refine ⟨?_, ?_, ?_, ?_⟩ <;> intro x hx <;> simp [demoStore] at hx
  have h1 := (roster_reconciliation demoStore draftCourse [mdA1, mdB] hwf).2 (by decide)
  have h2 := (roster_reconciliation demoStore draftCourse [mdA1, mdA2, mdB] hwf).1
    (by decide)
  exact ⟨h1.1, h1.2.1, h2⟩

/-- C10 counterexample: a LEARNER attempting to create a course is
rejected by the serializer with a DRF ValidationError — the
400-equivalent — not with an authorization (403-equivalent) error as the
claim states. -/
theorem create_role_failure_is_validation :
    (CourseSerializer.create demoStore uLearner demoCreateInput 20).2 =
      Except.error (ApiError.validation
        "Only trainers, department heads, or admins can create courses") ∧
    (ApiError.validation
      "Only trainers, department heads, or admins can create courses").http_status =
      400 := by
  refine ⟨rfl, rfl⟩

/-- C10 (amended): the ApiError kinds do map to distinct HTTP codes
(validation 400, authorization 403), but role/ownership failures do not
uniformly surface as 403: destroy and submit can never answer 403, since
any actor who passes the role-scoped 404 lookup already satisfies the
in-view ownership check; publish answers 403 exactly to the course's
creator (without ADMIN/RESPONSABLE role) on their own APPROVED course;
an actor outside the course's scope is answered 404; and the
serializer-level role and ownership gates of create and update raise
ValidationError — rendered 400 — so a forbidden create or update is not
distinguishable from a bad request. -/
theorem role_failures_views_vs_serializer (st : Store) (actor : User)
    (pk : Nat) (course : Course) (emailOk : Bool)
    (vd : CourseInput) (nid : Nat) (instance_ : Course) (uvd : UpdateInput)
    (HCID : (st.courses.map Course.id).Nodup)
    (hfind : findCourse st pk = some course)
    (hna : actor.role ≠ Role.ADMIN) (hnr : actor.role ≠ Role.RESPONSABLE) :
    (∀ (a : User) (j : Nat), (CourseViewSet.destroy st a j).1 ≠ 403) ∧
    (∀ (a : User) (j : Nat), (CourseViewSet.submit st a j emailOk).1 ≠ 403) ∧
    (course.created_by.id = actor.id → course.status = Status.APPROVED →
      CourseViewSet.publish st actor pk emailOk = (403, st)) ∧
    (course.created_by.id ≠ actor.id →
      CourseViewSet.publish st actor pk emailOk = (404, st)) ∧
    (actor.role ≠ Role.FORMATEUR →
      (CourseSerializer.create st actor vd nid).2 =
        Except.error (ApiError.validation
          "Only trainers, department heads, or admins can create courses")) ∧
    (instance_.created_by.id ≠ actor.id →
      (CourseSerializer.update st actor instance_ uvd emailOk).2 =
        Except.error (ApiError.validation "You can only update courses you created")) ∧
    (∀ msg, (ApiError.validation msg).http_status = 400 ∧
      (ApiError.authorization msg).http_status = 403) := by
  have hnever : ∀ (a : User) (j : Nat) (c : Course), getObject st a j = some c →
      ((!(c.created_by.id == a.id)) && (!(a.is_admin || a.is_responsable))) = false := by
    intro a j c hg
    rcases getObject_scope st a j c hg with h | h
    · simp [h]
    · simp [h]
  refine ⟨?_, ?_, ?_, ?_, ?_, ?_, fun msg => ⟨rfl, rfl⟩⟩
  · intro a j
    cases hg : getObject st a j with
    | none =>
      unfold CourseViewSet.destroy
      rw [hg]
      show (404 : Nat) ≠ 403
      decide
    | some c =>
      unfold CourseViewSet.destroy
      rw [hg]
      have h3 := hnever a j c hg
      by_cases h1 : (c.status == Status.DRAFT) = true
      · have hd : (!(c.status == Status.DRAFT)) = false := by simp [h1]
        simp only [hd, h3, Bool.false_eq_true, if_false]
        show (204 : Nat) ≠ 403
        decide
      · have hd : (!(c.status == Status.DRAFT)) = true := by simp [h1]
        simp only [hd, if_true]
        show (400 : Nat) ≠ 403
        decide
  · intro a j
    cases hg : getObject st a j with
    | none =>
      unfold CourseViewSet.submit
      rw [hg]
      show (404 : Nat) ≠ 403
      decide
    | some c =>
      unfold CourseViewSet.submit
      rw [hg]
      have h3 := hnever a j c hg
      by_cases h1 : (c.status == Status.DRAFT) = true
      · have hd : (!(c.status == Status.DRAFT)) = false := by simp [h1]
        simp only [hd, h3, Bool.false_eq_true, if_false]
        cases hsv : Course.save st { c with status := Status.SUBMITTED } emailOk with
        | mk b st1 =>
          cases b
          · show (500 : Nat) ≠ 403
            decide
          · show (200 : Nat) ≠ 403
            decide
      · have hd : (!(c.status == Status.DRAFT)) = true := by simp [h1]
        simp only [hd, if_true]
        show (400 : Nat) ≠ 403
        decide
  · intro hcr happ
    have hget := getObject_of_permitted st actor pk course hfind (Or.inl hcr)
    unfold CourseViewSet.publish
    rw [hget]
    simp [happ, hna, hnr, User.is_admin, User.is_responsable]
  · intro hnc
    exact publish_miss st actor pk emailOk
      (getObject_none_out_of_scope st actor pk course HCID hfind hnc hna hnr)
  · intro hnf
    unfold CourseSerializer.create
    simp [hnf, hna, hnr, User.is_formateur, User.is_admin, User.is_responsable]
  · intro hnotowner
    unfold CourseSerializer.update
    simp [hnotowner, hna, hnr, User.is_admin, User.is_responsable]

/-- Witness for C10 (amended) on the demo store: 404 (not 403) for the
learner on the draft and approved courses of others, 403 from publish
only for the course's creator, ValidationError from create and
update. -/
theorem role_failures_views_vs_serializer_witness :
    (CourseViewSet.destroy demoStore uLearner 10).1 ≠ 403 ∧
    (CourseViewSet.submit demoStore uLearner 10 true).1 ≠ 403 ∧
    CourseViewSet.publish demoStore uFormateur 11 true = (403, demoStore) ∧
    CourseViewSet.publish demoStore uLearner 11 true = (404, demoStore) ∧
    (CourseSerializer.create demoStore uLearner demoCreateInput 20).2 =
      Except.error (ApiError.validation
        "Only trainers, department heads, or admins can create courses") ∧
    (CourseSerializer.update demoStore uLearner draftCourse
      (CourseSerializer.validated_update_data demoRawUpdate) true).2 =
      Except.error (ApiError.validation "You can only update courses you created") ∧
    (ApiError.validation "no").http_status = 400 ∧
    (ApiError.authorization "no").http_status = 403 := by
  have h11 : findCourse demoStore 11 = some approvedCourse := by decide
  have hA := role_failures_views_vs_serializer demoStore uFormateur 11 approvedCourse
    true demoCreateInput 20 draftCourse
    (CourseSerializer.validated_update_data demoRawUpdate)
    (by decide) h11 (by decide) (by decide)
  have hB := role_failures_views_vs_serializer demoStore uLearner 11 approvedCourse
    true demoCreateInput 20 draftCourse
    (CourseSerializer.validated_update_data demoRawUpdate)
    (by decide) h11 (by decide) (by decide)
  exact ⟨hA.1 uLearner 10, hA.2.1 uLearner 10, hA.2.2.1 rfl rfl,
    hB.2.2.2.1 (by decide), hB.2.2.2.2.1 (by decide), hB.2.2.2.2.2.1 (by decide),
    (hB.2.2.2.2.2.2 "no").1, (hB.2.2.2.2.2.2 "no").2⟩

/-- A list whose image under a key function has no duplicates is keyed by
that function. -/
theorem countRecip_append (a b : List Notification) (i : Nat) :
    countRecip (a ++ b) i = countRecip a i + countRecip b i := by
  simp [countRecip, List.filter_append]

/-- With working email, the parent loop notifies exactly the active
parents among the relationships it was given. -/
theorem parentsLoop_true (c : Course) (l : User) (rs : List ParentChildRelationship) :
    notifyLearnerParentsLoop true c l rs =
      ((rs.filter (fun r => r.parent.is_active)).map
        (fun r => parentNotification c l r.parent),
       (rs.filter (fun r => r.parent.is_active)).map
        (fun r => parentEmail c l r.parent)) := by
  induction rs with
  | nil => rfl
  | cons r rs ih =>
    rw [List.filter_cons]
    cases h : r.parent.is_active
    · simp only [notifyLearnerParentsLoop, h, Bool.not_false, if_true]
      simpa using ih
    · simp only [notifyLearnerParentsLoop, h, Bool.not_true, Bool.false_eq_true, if_false]
      rw [ih]
      simp

theorem flatten_map_singleton {α β : Type} (f : α → β) (l : List α) :
    (l.map (fun a => [f a])).flatten = l.map f := by
  induction l with
  | nil => rfl
  | cons a l ih => simp [ih]

/-- With working email, the subscriber fan-out persists exactly the
learner blocks followed by the standalone-parent notifications. -/
theorem subscribers_true_notifs (users : List User)
    (rels : List ParentChildRelationship) (c : Course) :
    (notify_subscribers true users rels c).1 =
      ((users.filter (fun u => u.role == Role.LEARNER && u.is_active)).map
        (learnerBlock c rels)).flatten ++
      (users.filter (fun u => u.role == Role.PARENT && u.is_active &&
        noChildRelationships rels u)).map (generalParentNotification c) := by
  have hb : ∀ L : List User,
      ((L.map (fun l => ((notify_learner true c l).1 ++
        (notify_learner_parents true c l rels).1,
        (notify_learner true c l).2 ++
        (notify_learner_parents true c l rels).2))).map Prod.fst).flatten =
      (L.map (learnerBlock c rels)).flatten := by
    intro L
    rw [List.map_map]
    have hfun : (Prod.fst ∘ fun l => ((notify_learner true c l).1 ++
        (notify_learner_parents true c l rels).1,
        (notify_learner true c l).2 ++ (notify_learner_parents true c l rels).2)) =
        learnerBlock c rels := by
      funext l
      unfold notify_learner notify_learner_parents
      simp only [Function.comp]
      rw [parentsLoop_true]
      simp [learnerBlock]
    rw [hfun]
  have hs : ∀ P : List User,
      ((P.map (notify_general_parent true c)).map Prod.fst).flatten =
      P.map (generalParentNotification c) := by
    intro P
    rw [List.map_map]
    have : (Prod.fst ∘ notify_general_parent true c) =
        (fun p => [generalParentNotification c p]) := by
      funext p
      rfl
    rw [this, flatten_map_singleton]
  show ((((users.filter (fun u => u.role == Role.LEARNER && u.is_active)).map
      (fun l => ((notify_learner true c l).1 ++ (notify_learner_parents true c l rels).1,
        (notify_learner true c l).2 ++
        (notify_learner_parents true c l rels).2))).map Prod.fst).flatten ++
    (((users.filter (fun u => u.role == Role.PARENT && u.is_active &&
      noChildRelationships rels u)).map (notify_general_parent true c)).map
        Prod.fst).flatten) = _
  rw [hb, hs]

/-- Splitting a filtered count over a disjunction of mutually exclusive
conditions. -/
theorem length_filter_or_split {α : Type} (p q1 q2 : α → Bool)
    (h : ∀ a, q1 a = true → q2 a = false) (xs : List α) :
    (xs.filter (fun a => p a && (q1 a || q2 a))).length =
      (xs.filter (fun a => p a && q1 a)).length +
      (xs.filter (fun a => p a && q2 a)).length := by
  induction xs with
  | nil => rfl
  | cons x xs ih =>
    rw [List.filter_cons, List.filter_cons, List.filter_cons]
    cases hp : p x
    · simpa using ih
    · cases h1 : q1 x
      · cases h2 : q2 x
        · simpa using ih
        · simp only [Bool.true_and, Bool.false_or, if_pos, List.length_cons]
          simp [ih]
          omega
      · have h2 := h x h1
        simp only [h2, Bool.true_and, Bool.or_false, if_pos, List.length_cons]
        simp [ih]
        omega

/-- In a learner's block, a recipient who is not a PARENT is hit exactly
when they are the learner. -/
theorem countRecip_learnerBlock_nonparent (c : Course)
    (rels : List ParentChildRelationship) (users : List User) (T l : User)
    (HU : ∀ a ∈ users, ∀ b ∈ users, a.id = b.id → a = b)
    (HR : ∀ r ∈ rels, r.parent ∈ users ∧ r.child ∈ users ∧
      r.parent.role = Role.PARENT ∧ r.child.role = Role.LEARNER)
    (hT : T ∈ users) (hTrole : T.role ≠ Role.PARENT) :
    countRecip (learnerBlock c rels l) T.id = (if l.id = T.id then 1 else 0) := by
  unfold learnerBlock countRecip
  rw [List.filter_cons]
  have hpl : ∀ (a : Notification), ∀ x ∈ rels, x.parent.is_active = true →
      x.child.id = l.id → parentNotification c l x.parent = a →
      ¬a.recipient = T.id := by
    intro a r hr hact hchild hpn hrec
    obtain ⟨hpu, -, hprole, -⟩ := HR r hr
    rw [← hpn] at hrec
    have hid : r.parent.id = T.id := by simpa [parentNotification] using hrec
    have hpT : r.parent = T := HU r.parent hpu T hT hid
    rw [hpT] at hprole
    exact hTrole hprole
  by_cases hl : l.id = T.id
  · have hb : ((learnerNotification c l).recipient == T.id) = true := by
      simp [learnerNotification, hl]
    rw [if_pos hb, if_pos hl]
    simp
    exact hpl
  · have hb : ¬(((learnerNotification c l).recipient == T.id) = true) := by
      simp [learnerNotification, hl]
    rw [if_neg hb, if_neg hl]
    simp
    exact hpl

/-- Counting an active parent T in the parent part of one learner's
block (sources already merged into one filter). -/
theorem parent_count_aux (c : Course) (T l : User) (hTact : T.is_active = true) :
    ∀ rs : List ParentChildRelationship,
      (∀ r ∈ rs, r.parent.id = T.id → r.parent = T) →
      (List.filter (fun n => n.recipient == T.id)
        (List.map (fun r => parentNotification c l r.parent)
          (rs.filter (fun r => r.child.id == l.id && r.parent.is_active)))).length =
      (rs.filter (fun r => r.parent.id == T.id && r.child.id == l.id)).length := by
  intro rs
  induction rs with
  | nil =>
    intro _
    rfl
  | cons r rs ih =>
    intro hkey
    have hkey2 : ∀ x ∈ rs, x.parent.id = T.id → x.parent = T :=
      fun x hx => hkey x (List.mem_cons_of_mem _ hx)
    have hih := ih hkey2
    have hrecip : ((parentNotification c l r.parent).recipient == T.id) =
        (r.parent.id == T.id) := rfl
    cases hch : (r.child.id == l.id) with
    | false => simp [List.filter_cons, hch, hih]
    | true =>
      cases hpid : (r.parent.id == T.id) with
      | true =>
        have hpT : r.parent = T := hkey r (by simp) (by simpa using hpid)
        have hact : r.parent.is_active = true := by
          rw [hpT]
          exact hTact
        simp [List.filter_cons, List.map_cons, hch, hpid, hact, hrecip, hih]
      | false =>
        cases hact : r.parent.is_active with
        | false => simp [List.filter_cons, hch, hpid, hact, hih]
        | true => simp [List.filter_cons, List.map_cons, hch, hpid, hact, hrecip, hih]

/-- In a learner's block with the learner drawn from the user table, an
active PARENT is hit once per relationship linking them to this
learner. -/
theorem countRecip_learnerBlock_parent (c : Course)
    (rels : List ParentChildRelationship) (users : List User) (T l : User)
    (HU : ∀ a ∈ users, ∀ b ∈ users, a.id = b.id → a = b)
    (HR : ∀ r ∈ rels, r.parent ∈ users ∧ r.child ∈ users ∧
      r.parent.role = Role.PARENT ∧ r.child.role = Role.LEARNER)
    (hT : T ∈ users) (hTrole : T.role = Role.PARENT) (hTact : T.is_active = true)
    (hl : l ∈ users) (hlrole : l.role = Role.LEARNER) :
    countRecip (learnerBlock c rels l) T.id =
      (rels.filter (fun r => r.parent.id == T.id && r.child.id == l.id)).length := by
  unfold learnerBlock countRecip
  rw [List.filter_cons]
  have hb : ¬(((learnerNotification c l).recipient == T.id) = true) := by
    simp only [learnerNotification]
    intro hc
    have hid : l.id = T.id := by simpa using hc
    have hlT : l = T := HU l hl T hT hid
    rw [hlT, hTrole] at hlrole
    cases hlrole
  rw [if_neg hb]
  have hmerge : (rels.filter (fun r => r.child.id == l.id)).filter
      (fun r => r.parent.is_active) =
      rels.filter (fun r => r.child.id == l.id && r.parent.is_active) := by
    rw [List.filter_filter]
    exact List.filter_congr (fun r _ => Bool.and_comm _ _)
  rw [hmerge]
  exact parent_count_aux c T l hTact rels
    (fun r hr hid => HU r.parent (HR r hr).1 T hT hid)

/-- Blocks of learners none of whom carries the recipient id contribute
nothing to a non-PARENT recipient. -/
theorem count_blocks_nonparent_zero (c : Course)
    (rels : List ParentChildRelationship) (users : List User) (T : User)
    (HU : ∀ a ∈ users, ∀ b ∈ users, a.id = b.id → a = b)
    (HR : ∀ r ∈ rels, r.parent ∈ users ∧ r.child ∈ users ∧
      r.parent.role = Role.PARENT ∧ r.child.role = Role.LEARNER)
    (hT : T ∈ users) (hTrole : T.role ≠ Role.PARENT) :
    ∀ ls : List User, (∀ l ∈ ls, l ∈ users) → (∀ l ∈ ls, l.id ≠ T.id) →
      countRecip ((ls.map (learnerBlock c rels)).flatten) T.id = 0 := by
  intro ls
  induction ls with
  | nil =>
    intro _ _
    rfl
  | cons l ls ih =>
    intro hsub hne
    rw [List.map_cons, List.flatten_cons, countRecip_append]
    rw [countRecip_learnerBlock_nonparent c rels users T l HU HR hT hTrole]
    rw [if_neg (hne l (by simp))]
    rw [ih (fun x hx => hsub x (List.mem_cons_of_mem _ hx))
      (fun x hx => hne x (List.mem_cons_of_mem _ hx))]

/-- A non-PARENT member of the learner list is hit exactly once across
all blocks. -/
theorem count_blocks_nonparent_one (c : Course)
    (rels : List ParentChildRelationship) (users : List User) (T : User)
    (HU : ∀ a ∈ users, ∀ b ∈ users, a.id = b.id → a = b)
    (HR : ∀ r ∈ rels, r.parent ∈ users ∧ r.child ∈ users ∧
      r.parent.role = Role.PARENT ∧ r.child.role = Role.LEARNER)
    (hT : T ∈ users) (hTrole : T.role ≠ Role.PARENT) :
    ∀ ls : List User, (∀ l ∈ ls, l ∈ users) → (ls.map User.id).Nodup → T ∈ ls →
      countRecip ((ls.map (learnerBlock c rels)).flatten) T.id = 1 := by
  intro ls
  induction ls with
  | nil =>
    intro _ _ h
    simp at h
  | cons l ls ih =>
    intro hsub hnd hmem
    rw [List.map_cons] at hnd
    have hndc := List.nodup_cons.mp hnd
    rw [List.map_cons, List.flatten_cons, countRecip_append]
    rw [countRecip_learnerBlock_nonparent c rels users T l HU HR hT hTrole]
    rcases List.mem_cons.mp hmem with h | h
    · rw [if_pos (by rw [h])]
      rw [count_blocks_nonparent_zero c rels users T HU HR hT hTrole ls
        (fun x hx => hsub x (List.mem_cons_of_mem _ hx)) ?hne]
      case hne =>
        intro x hx hxid
        apply hndc.1
        rw [h] at hxid
        rw [← hxid]
        exact List.mem_map_of_mem User.id hx
    · rw [if_neg ?hlt]
      case hlt =>
        intro hlid
        apply hndc.1
        rw [hlid]
        exact List.mem_map_of_mem User.id h
      rw [ih (fun x hx => hsub x (List.mem_cons_of_mem _ hx)) hndc.2 h]

/-- An active PARENT is hit, across all blocks, once per relationship to
a learner appearing in the list. -/
theorem count_blocks_parent_sum (c : Course)
    (rels : List ParentChildRelationship) (users : List User) (T : User)
    (HU : ∀ a ∈ users, ∀ b ∈ users, a.id = b.id → a = b)
    (HR : ∀ r ∈ rels, r.parent ∈ users ∧ r.child ∈ users ∧
      r.parent.role = Role.PARENT ∧ r.child.role = Role.LEARNER)
    (hT : T ∈ users) (hTrole : T.role = Role.PARENT) (hTact : T.is_active = true) :
    ∀ ls : List User, (∀ l ∈ ls, l ∈ users ∧ l.role = Role.LEARNER) →
      (ls.map User.id).Nodup →
      countRecip ((ls.map (learnerBlock c rels)).flatten) T.id =
        (rels.filter (fun r => r.parent.id == T.id &&
          ls.any (fun l2 => r.child.id == l2.id))).length := by
  intro ls
  induction ls with
  | nil =>
    intro _ _
    simp [countRecip]
  | cons l ls ih =>
    intro hsub hnd
    rw [List.map_cons] at hnd
    have hndc := List.nodup_cons.mp hnd
    rw [List.map_cons, List.flatten_cons, countRecip_append]
    rw [countRecip_learnerBlock_parent c rels users T l HU HR hT hTrole hTact
      (hsub l (by simp)).1 (hsub l (by simp)).2]
    rw [ih (fun x hx => hsub x (List.mem_cons_of_mem _ hx)) hndc.2]
    have hdisj : ∀ r : ParentChildRelationship, (r.child.id == l.id) = true →
        (ls.any (fun l2 => r.child.id == l2.id)) = false := by
      intro r hr
      by_contra hq
      rw [Bool.not_eq_false, List.any_eq_true] at hq
      obtain ⟨l2, hl2, hl2id⟩ := hq
      apply hndc.1
      have h1 : r.child.id = l.id := by simpa using hr
      have h2 : r.child.id = l2.id := by simpa using hl2id
      rw [h1.symm.trans h2]
      exact List.mem_map_of_mem User.id hl2
    rw [← length_filter_or_split (fun r => r.parent.id == T.id)
      (fun r => r.child.id == l.id) (fun r => ls.any (fun l2 => r.child.id == l2.id))
      hdisj rels]
    simp only [List.any_cons]

/-- The standalone-parent tail never hits a non-PARENT recipient, nor a
parent who has any relationship row. -/
theorem count_standalone_zero (c : Course)
    (rels : List ParentChildRelationship) (users : List User) (T : User)
    (HU : ∀ a ∈ users, ∀ b ∈ users, a.id = b.id → a = b)
    (hT : T ∈ users)
    (hcase : T.role ≠ Role.PARENT ∨ ∃ r ∈ rels, r.parent.id = T.id) :
    countRecip ((users.filter (fun u => u.role == Role.PARENT && u.is_active &&
      noChildRelationships rels u)).map (generalParentNotification c)) T.id = 0 := by
  unfold countRecip
  rw [List.length_eq_zero]
  rw [List.filter_eq_nil_iff]
  intro n hn
  obtain ⟨q, hq, hqn⟩ := List.mem_map.mp hn
  obtain ⟨hqu, hqpred⟩ := List.mem_filter.mp hq
  intro hrec
  rw [← hqn] at hrec
  have hqid : q.id = T.id := by simpa [generalParentNotification] using hrec
  have hqT : q = T := HU q hqu T hT hqid
  simp only [Bool.and_eq_true] at hqpred
  rcases hcase with hrole | ⟨r, hr, hrid⟩
  · apply hrole
    rw [← hqT]
    have hrl := hqpred.1.1
    simpa using hrl
  · have hnone : noChildRelationships rels q = true := hqpred.2
    unfold noChildRelationships at hnone
    have hany : rels.any (fun r2 => r2.parent.id == q.id) = true := by
      rw [List.any_eq_true]
      exact ⟨r, hr, by simp [hrid, hqT]⟩
    simp [hany] at hnone

/-- Notification field of `_send_publish_notifications`. -/
theorem send_publish_notifs_shape (st : Store) (c : Course) (ok : Bool) :
    (send_publish_notifications st c ok).notifications =
      st.notifications ++ (notify_subscribers ok st.users st.relationships c).1 := rfl

/-- Email field of `_send_publish_notifications`. -/
theorem send_publish_emails_shape (st : Store) (c : Course) (ok : Bool) :
    (send_publish_notifications st c ok).emails =
      st.emails ++ notify_trainers ok st c ++
        (notify_subscribers ok st.users st.relationships c).2 ++
        notify_stakeholders ok st.users c := rfl

/-- Every active learner's own email is among the subscriber emails. -/
theorem learner_email_mem_subscribers (users : List User)
    (rels : List ParentChildRelationship) (c : Course) (T : User)
    (hT : T ∈ users.filter (fun u => u.role == Role.LEARNER && u.is_active)) :
    learnerEmail c T ∈ (notify_subscribers true users rels c).2 := by
  show learnerEmail c T ∈
    (((users.filter (fun u => u.role == Role.LEARNER && u.is_active)).map (fun l =>
      ((notify_learner true c l).1 ++ (notify_learner_parents true c l rels).1,
       (notify_learner true c l).2 ++ (notify_learner_parents true c l rels).2))).map
        Prod.snd).flatten ++
    (((users.filter (fun u => u.role == Role.PARENT && u.is_active &&
      noChildRelationships rels u)).map (notify_general_parent true c)).map
        Prod.snd).flatten
  refine List.mem_append.mpr (Or.inl ?_)
  rw [List.map_map]
  refine List.mem_flatten.mpr ⟨_, List.mem_map_of_mem _ hT, ?_⟩
  exact List.mem_cons_self _ _

/-- A permitted publish with working email: the persisted notifications
are exactly the old rows followed by the subscriber fan-out rows, every
subscriber email is logged, and every ADMIN/RESPONSABLE user gets the
stakeholder email. -/
theorem publish_true_store (st : Store) (actor : User) (pk : Nat)
    (course : Course) (hfind : findCourse st pk = some course)
    (hst : course.status = Status.APPROVED)
    (hrole : actor.role = Role.ADMIN ∨ actor.role = Role.RESPONSABLE) :
    (CourseViewSet.publish st actor pk true).2.notifications =
      st.notifications ++
        (notify_subscribers true st.users st.relationships
          { course with status := Status.PUBLISHED }).1 ∧
    (∀ e : Email, e ∈ (notify_subscribers true st.users st.relationships
        { course with status := Status.PUBLISHED }).2 →
      e ∈ (CourseViewSet.publish st actor pk true).2.emails) ∧
    (∀ u ∈ st.users, isEvaluator u = true →
      stakeholderEmail { course with status := Status.PUBLISHED } u ∈
        (CourseViewSet.publish st actor pk true).2.emails) := by
  have hokrole : (actor.is_admin || actor.is_responsable) = true := by
    rcases hrole with h | h <;> simp [User.is_admin, User.is_responsable, h]
  have hget : getObject st actor pk = some course :=
    getObject_of_permitted st actor pk course hfind (Or.inr hrole)
  unfold CourseViewSet.publish
  rw [hget]
  simp only [hst, beq_self_eq_true, Bool.not_true, Bool.false_eq_true, if_false,
    hokrole]
  have hsv : ∀ c2 : Course, c2.status = Status.PUBLISHED →
      Course.save st c2 true =
        (true, { st with courses := updateCourseList st.courses c2 }) := by
    intro c2 hc2
    unfold Course.save
    simp [hc2]
  rw [hsv _ rfl]
  refine ⟨rfl, ?_, ?_⟩
  · intro e he
    rw [send_publish_emails_shape]
    refine List.mem_append.mpr (Or.inl (List.mem_append.mpr (Or.inr ?_)))
    exact he
  · intro u hu hev
    rw [send_publish_emails_shape]
    refine List.mem_append.mpr (Or.inr ?_)
    show stakeholderEmail ({ course with status := Status.PUBLISHED }) u ∈
      (st.users.filter isEvaluator).map
        (stakeholderEmail ({ course with status := Status.PUBLISHED }))
    exact List.mem_map_of_mem _ (List.mem_filter.mpr ⟨hu, hev⟩)

/-- C6: when an ADMIN publishes an APPROVED course the call answers 200
and the persisted status becomes PUBLISHED; every active LEARNER gains
exactly one persisted notification row and receives the course email;
every active PARENT with at least one relationship row gains exactly one
notification row per relationship to an active learner; and every
RESPONSABLE/ADMIN user gains no notification row at all but does receive
the stakeholder email. -/
theorem publish_notification_fanout (st : Store) (actor : User) (pk : Nat)
    (course : Course) (T : User)
    (hfind : findCourse st pk = some course)
    (hst : course.status = Status.APPROVED)
    (hadmin : actor.role = Role.ADMIN)
    (HID : (st.users.map User.id).Nodup)
    (HR : ∀ r ∈ st.relationships, r.parent ∈ st.users ∧ r.child ∈ st.users ∧
      r.parent.role = Role.PARENT ∧ r.child.role = Role.LEARNER)
    (hT : T ∈ st.users) :
    (CourseViewSet.publish st actor pk true).1 = 200 ∧
    courseStatus (CourseViewSet.publish st actor pk true).2 pk =
      some Status.PUBLISHED ∧
    (T.role = Role.LEARNER → T.is_active = true →
      countRecip (CourseViewSet.publish st actor pk true).2.notifications T.id =
        countRecip st.notifications T.id + 1 ∧
      learnerEmail { course with status := Status.PUBLISHED } T ∈
        (CourseViewSet.publish st actor pk true).2.emails) ∧
    (T.role = Role.PARENT → T.is_active = true →
      (∃ r ∈ st.relationships, r.parent.id = T.id) →
      countRecip (CourseViewSet.publish st actor pk true).2.notifications T.id =
        countRecip st.notifications T.id +
          (st.relationships.filter (fun r => r.parent.id == T.id &&
            r.child.is_active)).length) ∧
    (isEvaluator T = true →
      countRecip (CourseViewSet.publish st actor pk true).2.notifications T.id =
        countRecip st.notifications T.id ∧
      stakeholderEmail { course with status := Status.PUBLISHED } T ∈
        (CourseViewSet.publish st actor pk true).2.emails) := by
  have HU := key_of_nodup User.id st.users HID
  have hpa := publish_approved_role st actor pk true course hfind hst (Or.inl hadmin)
  obtain ⟨hnot, hmemsub, hstake⟩ :=
    publish_true_store st actor pk course hfind hst (Or.inl hadmin)
  have hsubls : ∀ l ∈ st.users.filter (fun u => u.role == Role.LEARNER && u.is_active),
      l ∈ st.users := fun l hl => (List.mem_filter.mp hl).1
  have hnd2 : ((st.users.filter (fun u => u.role == Role.LEARNER && u.is_active)).map
      User.id).Nodup :=
    List.Nodup.sublist (List.Sublist.map User.id (List.filter_sublist st.users)) HID
  have hcount : countRecip (CourseViewSet.publish st actor pk true).2.notifications
      T.id =
      countRecip st.notifications T.id +
        countRecip (((st.users.filter (fun u => u.role == Role.LEARNER &&
          u.is_active)).map (learnerBlock ({ course with status := Status.PUBLISHED })
            st.relationships)).flatten) T.id +
        countRecip ((st.users.filter (fun u => u.role == Role.PARENT && u.is_active &&
          noChildRelationships st.relationships u)).map
            (generalParentNotification ({ course with status := Status.PUBLISHED })))
          T.id := by
    rw [hnot, countRecip_append, subscribers_true_notifs, countRecip_append]
    omega
  refine ⟨hpa.1, hpa.2, ?_, ?_, ?_⟩
  · intro hTrole hTact
    have hTnp : T.role ≠ Role.PARENT := by
      rw [hTrole]
      intro hc
      cases hc
    have hTls : T ∈ st.users.filter (fun u => u.role == Role.LEARNER && u.is_active) :=
      List.mem_filter.mpr ⟨hT, by simp [hTrole, hTact]⟩
    have hB := count_blocks_nonparent_one ({ course with status := Status.PUBLISHED })
      st.relationships st.users T HU HR hT hTnp
      (st.users.filter (fun u => u.role == Role.LEARNER && u.is_active))
      hsubls hnd2 hTls
    have hS := count_standalone_zero ({ course with status := Status.PUBLISHED })
      st.relationships st.users T HU hT (Or.inl hTnp)
    refine ⟨?_, ?_⟩
    · rw [hcount, hB, hS]
    · exact hmemsub _
        (learner_email_mem_subscribers st.users st.relationships _ T hTls)
  · intro hTrole hTact hrel
    have hls : ∀ l ∈ st.users.filter (fun u => u.role == Role.LEARNER && u.is_active),
        l ∈ st.users ∧ l.role = Role.LEARNER := by
      intro l hl
      have h := List.mem_filter.mp hl
      refine ⟨h.1, ?_⟩
      have h2 := h.2
      simp only [Bool.and_eq_true] at h2
      simpa using h2.1
    have hB := count_blocks_parent_sum ({ course with status := Status.PUBLISHED })
      st.relationships st.users T HU HR hT hTrole hTact
      (st.users.filter (fun u => u.role == Role.LEARNER && u.is_active))
      hls hnd2
    have hS := count_standalone_zero ({ course with status := Status.PUBLISHED })
      st.relationships st.users T HU hT (Or.inr hrel)
    have hconv : st.relationships.filter (fun r => r.parent.id == T.id &&
        (st.users.filter (fun u => u.role == Role.LEARNER && u.is_active)).any
          (fun l2 => r.child.id == l2.id)) =
        st.relationships.filter (fun r => r.parent.id == T.id &&
          r.child.is_active) := by
      apply List.filter_congr
      intro r hr
      obtain ⟨hpu, hcu, hprole, hcrole⟩ := HR r hr
      congr 1
      cases hact : r.child.is_active with
      | true =>
        rw [List.any_eq_true]
        exact ⟨r.child, List.mem_filter.mpr ⟨hcu, by simp [hcrole, hact]⟩, by simp⟩
      | false =>
        by_contra hq
        rw [Bool.not_eq_false, List.any_eq_true] at hq
        obtain ⟨l2, hl2, hid⟩ := hq
        have hl2m := List.mem_filter.mp hl2
        have hcid : r.child.id = l2.id := by simpa using hid
        have hceq : r.child = l2 := HU r.child hcu l2 hl2m.1 hcid
        have hl2act : l2.is_active = true := by
          have h2 := hl2m.2
          simp only [Bool.and_eq_true] at h2
          exact h2.2
        rw [← hceq] at hl2act
        simp [hl2act] at hact
    rw [hcount, hB, hS, hconv]
    omega
  · intro hev
    have hTnp : T.role ≠ Role.PARENT := by
      intro hc
      unfold isEvaluator at hev
      rw [hc] at hev
      simp at hev
    have hne : ∀ l ∈ st.users.filter (fun u => u.role == Role.LEARNER && u.is_active),
        l.id ≠ T.id := by
      intro l hl hid
      have hlm := List.mem_filter.mp hl
      have hlT : l = T := HU l hlm.1 T hT hid
      have hrl : (l.role == Role.LEARNER) = true := by
        have h2 := hlm.2
        simp only [Bool.and_eq_true] at h2
        exact h2.1
      rw [hlT] at hrl
      have hTlearner : T.role = Role.LEARNER := by simpa using hrl
      unfold isEvaluator at hev
      rw [hTlearner] at hev
      simp at hev
    have hB := count_blocks_nonparent_zero ({ course with status := Status.PUBLISHED })
      st.relationships st.users T HU HR hT hTnp
      (st.users.filter (fun u => u.role == Role.LEARNER && u.is_active))
      hsubls hne
    have hS := count_standalone_zero ({ course with status := Status.PUBLISHED })
      st.relationships st.users T HU hT (Or.inl hTnp)
    refine ⟨?_, hstake T hT hev⟩
    rw [hcount, hB, hS]
    omega

/-- Witness for C6 on the demo store: the ADMIN publishes the approved
course (id 11); the active parent (id 5) has one relationship to an
active learner and is counted accordingly. -/
theorem publish_notification_fanout_witness :
    findCourse demoStore 11 = some approvedCourse ∧
    ((CourseViewSet.publish demoStore uAdmin 11 true).1 = 200 ∧
      countRecip (CourseViewSet.publish demoStore uAdmin 11 true).2.notifications
        uParent.id =
        countRecip demoStore.notifications uParent.id +
          (demoStore.relationships.filter (fun r => r.parent.id == uParent.id &&
            r.child.is_active)).length) := by
  have h11 : findCourse demoStore 11 = some approvedCourse := by decide
  have hHR : ∀ r ∈ demoStore.relationships, r.parent ∈ demoStore.users ∧
      r.child ∈ demoStore.users ∧ r.parent.role = Role.PARENT ∧
      r.child.role = Role.LEARNER := by decide
  have hth := publish_notification_fanout demoStore uAdmin 11 approvedCourse uParent
    h11 rfl rfl (by decide) hHR (by decide)
  exact ⟨h11, hth.1, hth.2.2.2.1 rfl rfl
    ⟨{ parent := uParent, child := uLearner, relationship := "Parent/Guardian" },
      by decide, rfl⟩⟩

end OETS
